import Mathlib

/-!
Shallow embedding of the resource discovery/export helpers of the
terraform-provider-oci repository (oci/export_resource_helpers.go and the
pagination loop of oci/identity_tag_namespaces_data_source.go), together
with theorems settling the specification claims about them.

Go `map[string]T` values are embedded as association lists whose operations
follow Go map semantics: assignment overwrites the entry for an existing
key, `delete` removes it, and an absent key reads as `none`.
-/

namespace ExportHelpers

/-- Lookup in an association list, first matching key wins (a Go map has at
most one entry per key; on well-formed maps this is exact Go semantics). -/
def mapLookup {α : Type} : List (String × α) → String → Option α
  | [], _ => none
  | (k', v') :: rest, k => if k' = k then some v' else mapLookup rest k

/-- Go map assignment `m[k] = v`: replace the entry for `k` if present,
otherwise add one. -/
def mapInsert {α : Type} : List (String × α) → String → α → List (String × α)
  | [], k, v => [(k, v)]
  | (k', v') :: rest, k, v =>
      if k' = k then (k, v) :: rest else (k', v') :: mapInsert rest k v

/-- Go `delete(m, k)`: remove every entry for `k`. -/
def mapErase {α : Type} : List (String × α) → String → List (String × α)
  | [], _ => []
  | (k', v') :: rest, k =>
      if k' = k then mapErase rest k else (k', v') :: mapErase rest k

theorem mapLookup_mapInsert_self {α : Type} (m : List (String × α)) (k : String) (v : α) :
    mapLookup (mapInsert m k v) k = some v := by
  induction m with
  | nil => simp [mapInsert, mapLookup]
  | cons p rest ih =>
      obtain ⟨k', v'⟩ := p
      by_cases h : k' = k
      · simp [mapInsert, mapLookup, h]
      · simp [mapInsert, mapLookup, h, ih]

theorem mapLookup_mapInsert_ne {α : Type} (m : List (String × α)) (k k' : String) (v : α)
    (h : k ≠ k') : mapLookup (mapInsert m k v) k' = mapLookup m k' := by
  induction m with
  | nil => simp [mapInsert, mapLookup, h]
  | cons p rest ih =>
      obtain ⟨k₀, v₀⟩ := p
      by_cases hk : k₀ = k
      · subst hk
        simp [mapInsert, mapLookup, h]
      · simp [mapInsert, mapLookup, hk, ih]

theorem mapInsert_self {α : Type} (m : List (String × α)) (k : String) (v : α)
    (h : mapLookup m k = some v) : mapInsert m k v = m := by
  induction m with
  | nil => simp [mapLookup] at h
  | cons p rest ih =>
      obtain ⟨k₀, v₀⟩ := p
      by_cases hk : k₀ = k
      · subst hk
        simp [mapLookup] at h
        simp [mapInsert, h]
      · simp [mapLookup, hk] at h
        simp [mapInsert, hk, ih h]

theorem mapLookup_mapErase_self {α : Type} (m : List (String × α)) (k : String) :
    mapLookup (mapErase m k) k = none := by
  induction m with
  | nil => simp [mapErase, mapLookup]
  | cons p rest ih =>
      obtain ⟨k₀, v₀⟩ := p
      by_cases hk : k₀ = k
      · simp [mapErase, hk, ih]
      · simp [mapErase, mapLookup, hk, ih]

/-- Dynamically typed attribute values, mirroring Go's `interface{}` as it
is used in `sourceAttributes` maps: strings, ints, bools, lists, nested
string-keyed maps, and the `InterpolationString` wrapper type from
export_resource_helpers.go. -/
inductive Value : Type where
  | str : String → Value
  | int : Int → Value
  | bool : Bool → Value
  | list : List Value → Value
  | map : List (String × Value) → Value
  | interp : String → Value

/-- One discovered cloud resource (struct `OCIResource` together with its
embedded `TerraformResource`), with the pointer to the parent resource
embedded by value (post-processing hooks read but never mutate parents). -/
inductive OCIResource : Type where
  | mk
      (id : String)
      (terraformClass : String)
      (terraformName : String)
      (terraformReferenceIdString : String)
      (importId : String)
      (compartmentId : String)
      (omitFromExport : Bool)
      (sourceAttributes : List (String × Value))
      (parent : Option OCIResource) : OCIResource

def OCIResource.id : OCIResource → String
  | .mk i _ _ _ _ _ _ _ _ => i

def OCIResource.terraformClass : OCIResource → String
  | .mk _ c _ _ _ _ _ _ _ => c

def OCIResource.terraformName : OCIResource → String
  | .mk _ _ n _ _ _ _ _ _ => n

def OCIResource.terraformReferenceIdString : OCIResource → String
  | .mk _ _ _ r _ _ _ _ _ => r

def OCIResource.importId : OCIResource → String
  | .mk _ _ _ _ i _ _ _ _ => i

def OCIResource.compartmentId : OCIResource → String
  | .mk _ _ _ _ _ c _ _ _ => c

def OCIResource.omitFromExport : OCIResource → Bool
  | .mk _ _ _ _ _ _ o _ _ => o

def OCIResource.sourceAttributes : OCIResource → List (String × Value)
  | .mk _ _ _ _ _ _ _ a _ => a

def OCIResource.parent : OCIResource → Option OCIResource
  | .mk _ _ _ _ _ _ _ _ p => p

def OCIResource.setId : OCIResource → String → OCIResource
  | .mk _ c n r im cp o a p, i => .mk i c n r im cp o a p

def OCIResource.setTerraformClass : OCIResource → String → OCIResource
  | .mk i _ n r im cp o a p, c => .mk i c n r im cp o a p

def OCIResource.setTerraformReferenceIdString : OCIResource → String → OCIResource
  | .mk i c n _ im cp o a p, r => .mk i c n r im cp o a p

def OCIResource.setSourceAttributes : OCIResource → List (String × Value) → OCIResource
  | .mk i c n r im cp o _ p, a => .mk i c n r im cp o a p

/-- Go `resource.sourceAttributes[k] = v`. -/
def OCIResource.setAttr (r : OCIResource) (k : String) (v : Value) : OCIResource :=
  r.setSourceAttributes (mapInsert r.sourceAttributes k v)

/-- The process-wide mutable state the post-processing hooks write:
the global `referenceMap` (cloud identifier → HCL expression) and the
global `vars` map (variable name → literal default), both Go maps. -/
structure ExportState : Type where
  referenceMap : List (String × String)
  vars : List (String × String)
deriving DecidableEq, Repr

/-- Modelled from the spec: `TerraformResource.getTerraformReference` is not
under src/; spec §4.4 describes resource references as
`<class>.<name>`-rooted attribute paths, so the reference of a resource is
its class and generated name joined by a dot. -/
def getTerraformReference (r : OCIResource) : String :=
  r.terraformClass ++ "." ++ r.terraformName

/-- Modelled from the spec: `tfHclVersion.getDoubleExpHclString` is not under
src/; spec §4.4 describes the registered expression as a direct resource
attribute reference `<class>.<name>.<attr>`. -/
def getDoubleExpHclString (ref attr : String) : String :=
  ref ++ "." ++ attr

/-- Modelled from the spec: `tfHclVersion.getVarHclString` is not under src/;
spec §4.4 describes it as a synthesized input variable reference. -/
def getVarHclString (varName : String) : String :=
  "var." ++ varName

/-- Modelled from the spec: `tfHclVersion.getDataSourceHclString` is not under
src/; spec §4.4 describes it as a data-source lookup expression rooted at the
data-source reference. -/
def getDataSourceHclString (ref attr : String) : String :=
  "data." ++ ref ++ "." ++ attr

/-- Modelled from the spec: `getBackendSetCompositeId` is not under src/;
spec §3 and the glossary describe composite IDs as `<parent-id>/<name>`-style
concatenations of the parent load balancer's id and the child's name. -/
def getBackendSetCompositeId (backendSetName loadBalancerId : String) : String :=
  loadBalancerId ++ "/backendSets/" ++ backendSetName

/-- Modelled from the spec: `getBackendCompositeId` is not under src/;
spec §3 and the glossary describe composite IDs as `<parent-id>/<name>`-style
concatenations, here through the owning backend set. -/
def getBackendCompositeId (backendName backendSetName loadBalancerId : String) : String :=
  loadBalancerId ++ "/backendSets/" ++ backendSetName ++ "/backends/" ++ backendName

/-- Modelled from the spec: `getBucketCompositeId` is not under src/;
spec §3 and the glossary describe composite IDs as `<parent-id>/<name>`-style
concatenations of the namespace (the bucket's parent) and the bucket name. -/
def getBucketCompositeId (bucketName namespaceName : String) : String :=
  namespaceName ++ "/" ++ bucketName

/-- Digits of a base-10 literal; `none` when empty or a non-digit occurs. -/
def decDigits? : List Char → Option Nat
  | [] => none
  | [c] => if c.isDigit then some (c.toNat - '0'.toNat) else none
  | c :: rest =>
      if c.isDigit then
        match decDigits? rest with
        | some n => some ((c.toNat - '0'.toNat) * 10 ^ rest.length + n)
        | none => none
      else none

/-- Go's `strconv.ParseInt(s, 10, 64)`: optional sign, non-empty digit run,
result within the signed 64-bit range; `none` models a non-nil error. -/
def goParseInt (s : String) : Option Int :=
  let signed : Int × List Char :=
    match s.data with
    | '+' :: rest => (1, rest)
    | '-' :: rest => (-1, rest)
    | l => (1, l)
  match decDigits? signed.2 with
  | none => none
  | some n =>
      let v : Int := signed.1 * n
      if v < -(2 ^ 63) ∨ 2 ^ 63 ≤ v then none else some v

/-- The instance-pool filter of `processInstances`
(export_resource_helpers.go:133-139): true when `freeform_tags` exists, is a
map, and contains the key `oci:compute:instancepool`. -/
def hasInstancePoolTag (r : OCIResource) : Bool :=
  match mapLookup r.sourceAttributes "freeform_tags" with
  | some (Value.map m) => (mapLookup m "oci:compute:instancepool").isSome
  | _ => false

/-- `processInstances` lines 141-146: register the instance's boot volume id
in the reference map when present as a string. -/
def registerBootVolumeRef (st : ExportState) (r : OCIResource) : ExportState :=
  match mapLookup r.sourceAttributes "boot_volume_id" with
  | some (Value.str s) =>
      { st with referenceMap := (mapInsert st.referenceMap s
          (getDoubleExpHclString (getTerraformReference r) "boot_volume_id")) }
  | _ => st

/-- `processInstances` lines 151-158: when the instance's `image` attribute
is a string, set `source_id` in the source-details map, record a
`<name>_source_image_id` variable with the quoted image OCID as default, and
register the image id in the reference map as a variable reference. -/
def imageStep (st : ExportState) (r : OCIResource)
    (sd : List (String × Value)) : ExportState × List (String × Value) :=
  match mapLookup r.sourceAttributes "image" with
  | some (Value.str imageId) =>
      let sd' := mapInsert sd "source_id" (Value.str imageId)
      let imageVarName := r.terraformName ++ "_source_image_id"
      ({ st with
          vars := mapInsert st.vars imageVarName ("\"" ++ imageId ++ "\""),
          referenceMap := mapInsert st.referenceMap imageId (getVarHclString imageVarName) },
       sd')
  | _ => (st, sd)

/-- `processInstances` lines 162-171: parse `boot_volume_size_in_gbs` when
present; a parse failure is returned as an error, a size below 50 deletes
the entry.  The unchecked Go assertion `bootVolumeSizeInGbs.(string)` panics
on a non-string value; the panic is modelled as an error since both abort
the export. -/
def bootVolumeSizeStep (sd : List (String × Value)) :
    Except String (List (String × Value)) :=
  match mapLookup sd "boot_volume_size_in_gbs" with
  | none => .ok sd
  | some (Value.str s) =>
      match goParseInt s with
      | none => .error ("strconv.ParseInt: parsing \"" ++ s ++ "\": invalid syntax")
      | some n => .ok (if n < 50 then mapErase sd "boot_volume_size_in_gbs" else sd)
  | some _ => .error "panic: interface conversion: interface is not string"

/-- Body of the `processInstances` loop for one retained instance
(export_resource_helpers.go:141-176): boot-volume registration, then the
source-details block (entered only when `source_details` is a non-empty list
whose first element is a map).  Go mutates the shared source-details map in
place; here the rewritten map is written back into `source_details`. -/
def processInstance (st : ExportState) (r : OCIResource) :
    Except String (ExportState × OCIResource) :=
  let st₁ := registerBootVolumeRef st r
  match mapLookup r.sourceAttributes "source_details" with
  | some (Value.list (Value.map sd :: tl)) =>
      match imageStep st₁ r sd with
      | (st₂, sd₁) =>
          match bootVolumeSizeStep sd₁ with
          | .error e => .error e
          | .ok sd₂ =>
              .ok (st₂, r.setAttr "source_details" (Value.list (Value.map sd₂ :: tl)))
  | _ => .ok (st₁, r)

/-- `processInstances` (export_resource_helpers.go:127-180): drop instances
carrying the instance-pool freeform tag, process each retained instance in
order.  On error Go returns the partially mutated input list alongside the
error; the export driver aborts on any error, so only the error is kept. -/
def processInstances (st : ExportState) :
    List OCIResource → Except String (ExportState × List OCIResource)
  | [] => .ok (st, [])
  | r :: rest =>
      if hasInstancePoolTag r then processInstances st rest
      else
        match processInstance st r with
        | .error e => .error e
        | .ok (st', r') =>
            match processInstances st' rest with
            | .error e => .error e
            | .ok (st'', rest') => .ok (st'', r' :: rest')

/-- The retention test of `filterSourcedBootVolumes`
(export_resource_helpers.go:220-228): keep exactly the boot volumes whose
`source_details` exists, is a list, and is non-empty. -/
def hasSourceDetails (r : OCIResource) : Bool :=
  match mapLookup r.sourceAttributes "source_details" with
  | some (Value.list l) => !l.isEmpty
  | _ => false

/-- `filterSourcedBootVolumes` (export_resource_helpers.go:216-234); the
function never returns a non-nil error. -/
def filterSourcedBootVolumes (resources : List OCIResource) : List OCIResource :=
  resources.filter hasSourceDetails

/-- The error message of `processAvailabilityDomains` for the domain at
0-based index `idx`. -/
def adNoNameError (idx : Nat) : String :=
  "[ERROR] availability domain at index '" ++ toString idx ++ "' has no name\n"

/-- Loop of `processAvailabilityDomains` (export_resource_helpers.go:237-245),
carrying the 0-based position `idx`: set the `index` attribute to `idx + 1`,
then fail unless `name` is a non-empty string, and register the name in the
reference map as a data-source expression.  On error Go returns the
partially mutated list alongside the error; the driver aborts, so only the
error is kept. -/
def processADs (st : ExportState) :
    List OCIResource → Nat → Except String (ExportState × List OCIResource)
  | [], _ => .ok (st, [])
  | ad :: rest, idx =>
      let ad' := ad.setAttr "index" (Value.int (idx + 1))
      match mapLookup ad.sourceAttributes "name" with
      | some (Value.str adName) =>
          if adName = "" then .error (adNoNameError idx)
          else
            let st' := { st with referenceMap := (mapInsert st.referenceMap adName
                (getDataSourceHclString (getTerraformReference ad') "name")) }
            match processADs st' rest (idx + 1) with
            | .error e => .error e
            | .ok (st'', rest') => .ok (st'', ad' :: rest')
      | _ => .error (adNoNameError idx)

/-- `processAvailabilityDomains` (export_resource_helpers.go:236-248). -/
def processAvailabilityDomains (st : ExportState) (resources : List OCIResource) :
    Except String (ExportState × List OCIResource) :=
  processADs st resources 0

/-- `processObjectStorageNamespace` (export_resource_helpers.go:250-260):
fail unless each namespace resource's `namespace` attribute is a non-empty
string, and register it in the reference map as a data-source expression. -/
def processObjectStorageNamespace (st : ExportState) :
    List OCIResource → Except String (ExportState × List OCIResource)
  | [] => .ok (st, [])
  | ns :: rest =>
      match mapLookup ns.sourceAttributes "namespace" with
      | some (Value.str namespaceName) =>
          if namespaceName = "" then
            .error "[ERROR] object storage namespace data source has no name\n"
          else
            let st' := { st with referenceMap := (mapInsert st.referenceMap namespaceName
                (getDataSourceHclString (getTerraformReference ns) "namespace")) }
            match processObjectStorageNamespace st' rest with
            | .error e => .error e
            | .ok (st'', rest') => .ok (st'', ns :: rest')
      | _ => .error "[ERROR] object storage namespace data source has no name\n"

/-- `getAvailabilityDomainHCLDatasource` (export_resource_helpers.go:262-275):
render the availability-domain data-source block.  Go's `%v` of a missing
`varMap` key prints the empty string; the unchecked `adIndex.(int)` assertion
panics on a non-int, modelled as an error. -/
def getAvailabilityDomainHCLDatasource (ociRes : OCIResource)
    (varMap : List (String × String)) : Except String String :=
  let header := "data " ++ ociRes.terraformClass ++ " " ++ ociRes.terraformName ++ " \x7b\n"
  let compartmentLine :=
    "compartment_id = " ++ (mapLookup varMap ociRes.compartmentId).getD "" ++ "\n"
  match mapLookup ociRes.sourceAttributes "index" with
  | none =>
      .error ("[ERROR] no index found for availability domain '" ++
        getTerraformReference ociRes ++ "'")
  | some (Value.int adIndex) =>
      .ok (header ++ compartmentLine ++
        "ad_number = \"" ++ toString adIndex ++ "\"\n" ++ "\x7d\n")
  | some _ => .error "panic: interface conversion: interface is not int"

/-- Error-propagating map over a list, the shape of every per-resource Go
loop that can fail (a panic or returned error aborts the loop). -/
def mapMExcept {α β : Type} (f : α → Except String β) : List α → Except String (List β)
  | [] => .ok []
  | a :: as =>
      match f a with
      | .error e => .error e
      | .ok b =>
          match mapMExcept f as with
          | .error e => .error e
          | .ok bs => .ok (b :: bs)

/-- Loop body shared verbatim (up to the two string constants) by
`processDefaultSecurityLists`, `processDefaultRouteTables` and
`processDefaultDhcpOptions` (export_resource_helpers.go:561-607): when the
resource's id equals the parent's `defaultIdKey` attribute, set
`manage_default_resource_id`, reclassify to `newClass`, and, unless the
parent is omitted from export, rewrite the reference-id string through the
parent.  The Go expression `resource.parent.sourceAttributes[key].(string)`
panics on a nil parent or a non-string attribute; panics are modelled as
errors. -/
def processDefaultResource (defaultIdKey newClass : String) (resource : OCIResource) :
    Except String OCIResource :=
  match resource.parent with
  | none => .error "panic: runtime error: invalid memory address or nil pointer dereference"
  | some p =>
      match mapLookup p.sourceAttributes defaultIdKey with
      | some (Value.str defaultId) =>
          if resource.id = defaultId then
            let r₁ := resource.setAttr "manage_default_resource_id" (Value.str resource.id)
            let r₂ := r₁.setTerraformClass newClass
            if !p.omitFromExport then
              .ok (r₂.setTerraformReferenceIdString
                (getTerraformReference p ++ "." ++ defaultIdKey))
            else .ok r₂
          else .ok resource
      | _ => .error "panic: interface conversion: interface is not string"

/-- `processDefaultSecurityLists` (export_resource_helpers.go:561-575). -/
def processDefaultSecurityLists (resources : List OCIResource) :
    Except String (List OCIResource) :=
  mapMExcept (processDefaultResource "default_security_list_id" "oci_core_default_security_list")
    resources

/-- `processDefaultRouteTables` (export_resource_helpers.go:577-591). -/
def processDefaultRouteTables (resources : List OCIResource) :
    Except String (List OCIResource) :=
  mapMExcept (processDefaultResource "default_route_table_id" "oci_core_default_route_table")
    resources

/-- `processDefaultDhcpOptions` (export_resource_helpers.go:593-607). -/
def processDefaultDhcpOptions (resources : List OCIResource) :
    Except String (List OCIResource) :=
  mapMExcept (processDefaultResource "default_dhcp_options_id" "oci_core_default_dhcp_options")
    resources

/-- Loop body of `processLoadBalancerBackendSets`
(export_resource_helpers.go:332-336): synthesize the composite id from the
backend set's `name` attribute and the parent load balancer's id, and set
`load_balancer_id`.  The unchecked `.(string)` assertion and nil-parent
dereference panic in Go; panics are modelled as errors. -/
def processBackendSet (backendSet : OCIResource) : Except String OCIResource :=
  match mapLookup backendSet.sourceAttributes "name" with
  | some (Value.str backendSetName) =>
      match backendSet.parent with
      | some p =>
          let r₁ := backendSet.setId (getBackendSetCompositeId backendSetName p.id)
          .ok (r₁.setAttr "load_balancer_id" (Value.str p.id))
      | none => .error "panic: runtime error: invalid memory address or nil pointer dereference"
  | _ => .error "panic: interface conversion: interface is not string"

/-- `processLoadBalancerBackendSets` (export_resource_helpers.go:331-339). -/
def processLoadBalancerBackendSets (resources : List OCIResource) :
    Except String (List OCIResource) :=
  mapMExcept processBackendSet resources

/-- Loop body of `processLoadBalancerBackends`
(export_resource_helpers.go:342-351): synthesize the composite id from the
backend's name, the parent backend set's name, and the parent's
`load_balancer_id`; copy `load_balancer_id` down; and set `backendset_name`
to an interpolation through the parent unless the parent is omitted.
Unchecked assertions and nil-parent dereferences panic; modelled as
errors. -/
def processBackend (backend : OCIResource) : Except String OCIResource :=
  match backend.parent with
  | none => .error "panic: runtime error: invalid memory address or nil pointer dereference"
  | some p =>
      match mapLookup backend.sourceAttributes "name",
            mapLookup p.sourceAttributes "name",
            mapLookup p.sourceAttributes "load_balancer_id" with
      | some (Value.str backendName), some (Value.str backendSetName),
        some (Value.str loadBalancerId) =>
          let r₁ := backend.setId (getBackendCompositeId backendName backendSetName loadBalancerId)
          let r₂ := r₁.setAttr "load_balancer_id" (Value.str loadBalancerId)
          if !p.omitFromExport then
            .ok (r₂.setAttr "backendset_name"
              (Value.interp (getDoubleExpHclString (getTerraformReference p) "name")))
          else
            .ok (r₂.setAttr "backendset_name" (Value.str backendSetName))
      | _, _, _ => .error "panic: interface conversion: interface is not string"

/-- `processLoadBalancerBackends` (export_resource_helpers.go:341-355). -/
def processLoadBalancerBackends (resources : List OCIResource) :
    Except String (List OCIResource) :=
  mapMExcept processBackend resources

/-- `getObjectStorageBucketId` (export_resource_helpers.go:393-405): error
unless both `name` and `namespace` are strings, else the bucket composite
id. -/
def getObjectStorageBucketId (resource : OCIResource) : Except String String :=
  match mapLookup resource.sourceAttributes "name" with
  | some (Value.str name) =>
      match mapLookup resource.sourceAttributes "namespace" with
      | some (Value.str namespaceName) => .ok (getBucketCompositeId name namespaceName)
      | _ => .error "[ERROR] unable to find namespace for bucket id"
  | _ => .error "[ERROR] unable to find name for bucket id"

/-- A paginated list API, as the claim models it: a function from an
optional page token to either an error or a page of items together with the
optional next-page token.  Tokens are embedded as naturals. -/
def PageApi (α : Type) : Type := Option Nat → Except String (List α × Option Nat)

/-- The `for request.Page != nil` loop shared verbatim by `findIdentityTags`
(export_resource_helpers.go:426-434) and
`IdentityTagNamespacesDataSourceCrud.Get`
(identity_tag_namespaces_data_source.go:74-84): while a next-page token is
present, fetch that page, append its items, and continue with its token.
`fuel` bounds the iteration count (the Go loop runs unboundedly; it
terminates exactly when the token chain does, which `fuel` makes explicit). -/
def collectRemainingPages {α : Type} (fetch : PageApi α) :
    Nat → List α → Option Nat → Except String (List α)
  | _, acc, none => .ok acc
  | 0, _, some _ => .error "page token chain exceeded fuel"
  | fuel + 1, acc, some tok =>
      match fetch (some tok) with
      | .error e => .error e
      | .ok (items, next) => collectRemainingPages fetch fuel (acc ++ items) next

/-- The pagination phase of `findIdentityTags`
(export_resource_helpers.go:419-434): one initial request with no page
token, then the collection loop over `OpcNextPage` tokens. -/
def findIdentityTagsAllPages {α : Type} (fetch : PageApi α) (fuel : Nat) :
    Except String (List α) :=
  match fetch none with
  | .error e => .error e
  | .ok (items, next) => collectRemainingPages fetch fuel items next

/-- The pagination phase of `IdentityTagNamespacesDataSourceCrud.Get`
(identity_tag_namespaces_data_source.go:66-84): one initial
`ListTagNamespaces` request, then the identical collection loop
accumulating into `s.Res.Items`. -/
def identityTagNamespacesGetAllPages {α : Type} (fetch : PageApi α) (fuel : Nat) :
    Except String (List α) :=
  match fetch none with
  | .error e => .error e
  | .ok (items, next) => collectRemainingPages fetch fuel items next

/-- A well-behaved server for a fixed finite page sequence: the request with
no token returns page 0, the request with token `i` returns page `i`, and
the next-page token is issued exactly while further pages remain. -/
def pagesFetcher {α : Type} (pages : List (List α)) : PageApi α := fun tok =>
  let i := tok.getD 0
  match (pages.drop i).head? with
  | none => .ok ([], none)
  | some p => .ok (p, if i + 1 < pages.length then some (i + 1) else none)

/-- The same server, except that the request for page `k` fails with `e`. -/
def pagesFetcherWithErr {α : Type} (pages : List (List α)) (k : Nat) (e : String) :
    PageApi α := fun tok =>
  if tok.getD 0 = k then .error e else pagesFetcher pages tok

/-! ### Basic lemmas about the embedded map operations and field updates -/

theorem mapLookup_mapErase_ne {α : Type} (m : List (String × α)) (k k' : String)
    (h : k ≠ k') : mapLookup (mapErase m k) k' = mapLookup m k' := by
  induction m with
  | nil => simp [mapErase]
  | cons p rest ih =>
      obtain ⟨k₀, v₀⟩ := p
      by_cases hk : k₀ = k
      · subst hk
        simp [mapErase, mapLookup, h, ih]
      · simp [mapErase, mapLookup, hk, ih]

theorem setAttr_id (r : OCIResource) (k : String) (v : Value) :
    (r.setAttr k v).id = r.id := by
  cases r; rfl

theorem setAttr_terraformClass (r : OCIResource) (k : String) (v : Value) :
    (r.setAttr k v).terraformClass = r.terraformClass := by
  cases r; rfl

theorem setAttr_terraformName (r : OCIResource) (k : String) (v : Value) :
    (r.setAttr k v).terraformName = r.terraformName := by
  cases r; rfl

theorem setAttr_terraformReferenceIdString (r : OCIResource) (k : String) (v : Value) :
    (r.setAttr k v).terraformReferenceIdString = r.terraformReferenceIdString := by
  cases r; rfl

theorem setAttr_parent (r : OCIResource) (k : String) (v : Value) :
    (r.setAttr k v).parent = r.parent := by
  cases r; rfl

theorem setAttr_sourceAttributes (r : OCIResource) (k : String) (v : Value) :
    (r.setAttr k v).sourceAttributes = mapInsert r.sourceAttributes k v := by
  cases r; rfl

theorem setId_parent (r : OCIResource) (i : String) : (r.setId i).parent = r.parent := by
  cases r; rfl

theorem setId_id (r : OCIResource) (i : String) : (r.setId i).id = i := by
  cases r; rfl

theorem setId_sourceAttributes (r : OCIResource) (i : String) :
    (r.setId i).sourceAttributes = r.sourceAttributes := by
  cases r; rfl

theorem setTerraformClass_parent (r : OCIResource) (c : String) :
    (r.setTerraformClass c).parent = r.parent := by
  cases r; rfl

theorem setTerraformClass_id (r : OCIResource) (c : String) :
    (r.setTerraformClass c).id = r.id := by
  cases r; rfl

theorem setTerraformClass_terraformClass (r : OCIResource) (c : String) :
    (r.setTerraformClass c).terraformClass = c := by
  cases r; rfl

theorem setTerraformClass_sourceAttributes (r : OCIResource) (c : String) :
    (r.setTerraformClass c).sourceAttributes = r.sourceAttributes := by
  cases r; rfl

theorem setTerraformClass_terraformReferenceIdString (r : OCIResource) (c : String) :
    (r.setTerraformClass c).terraformReferenceIdString = r.terraformReferenceIdString := by
  cases r; rfl

theorem setTerraformReferenceIdString_parent (r : OCIResource) (s : String) :
    (r.setTerraformReferenceIdString s).parent = r.parent := by
  cases r; rfl

theorem setTerraformReferenceIdString_id (r : OCIResource) (s : String) :
    (r.setTerraformReferenceIdString s).id = r.id := by
  cases r; rfl

theorem setTerraformReferenceIdString_terraformClass (r : OCIResource) (s : String) :
    (r.setTerraformReferenceIdString s).terraformClass = r.terraformClass := by
  cases r; rfl

theorem setTerraformReferenceIdString_sourceAttributes (r : OCIResource) (s : String) :
    (r.setTerraformReferenceIdString s).sourceAttributes = r.sourceAttributes := by
  cases r; rfl

theorem setTerraformReferenceIdString_self (r : OCIResource) :
    r.setTerraformReferenceIdString r.terraformReferenceIdString = r := by
  cases r; rfl

theorem setTerraformClass_self (r : OCIResource) :
    r.setTerraformClass r.terraformClass = r := by
  cases r; rfl

theorem setId_self (r : OCIResource) : r.setId r.id = r := by
  cases r; rfl

theorem setSourceAttributes_self (r : OCIResource) :
    r.setSourceAttributes r.sourceAttributes = r := by
  cases r; rfl

theorem setAttr_self (r : OCIResource) (k : String) (v : Value)
    (h : mapLookup r.sourceAttributes k = some v) : r.setAttr k v = r := by
  have := mapInsert_self r.sourceAttributes k v h
  unfold OCIResource.setAttr
  rw [this, setSourceAttributes_self]

/-! ### Lemmas about `mapMExcept` -/

theorem mapMExcept_ok_length {α β : Type} {f : α → Except String β}
    {rs : List α} {bs : List β} (h : mapMExcept f rs = .ok bs) :
    bs.length = rs.length := by
  induction rs generalizing bs with
  | nil => simp [mapMExcept] at h; simp [← h]
  | cons a as ih =>
      simp only [mapMExcept] at h
      cases hf : f a with
      | error e => rw [hf] at h; simp at h
      | ok b =>
          rw [hf] at h
          cases hm : mapMExcept f as with
          | error e => rw [hm] at h; simp at h
          | ok bs' =>
              rw [hm] at h
              simp at h
              subst h
              simp [ih hm]

theorem mapMExcept_ok_get {α β : Type} {f : α → Except String β}
    {rs : List α} {bs : List β} (h : mapMExcept f rs = .ok bs) :
    ∀ i (hi : i < rs.length) (hi' : i < bs.length),
      f (rs.get ⟨i, hi⟩) = .ok (bs.get ⟨i, hi'⟩) := by
  induction rs generalizing bs with
  | nil => intro i hi; simp at hi
  | cons a as ih =>
      simp only [mapMExcept] at h
      cases hf : f a with
      | error e => rw [hf] at h; simp at h
      | ok b =>
          rw [hf] at h
          cases hm : mapMExcept f as with
          | error e => rw [hm] at h; simp at h
          | ok bs' =>
              rw [hm] at h
              simp at h
              subst h
              intro i hi hi'
              match i with
              | 0 => simpa using hf
              | n + 1 =>
                  simp only [List.get]
                  exact ih hm n (by simpa using hi) (by simpa using hi')

theorem mapMExcept_idem {α : Type} {f : α → Except String α}
    (hf : ∀ a b, f a = .ok b → f b = .ok b) :
    ∀ {rs bs : List α}, mapMExcept f rs = .ok bs → mapMExcept f bs = .ok bs := by
  intro rs
  induction rs with
  | nil => intro bs h; simp [mapMExcept] at h; subst h; simp [mapMExcept]
  | cons a as ih =>
      intro bs h
      simp only [mapMExcept] at h
      cases hfa : f a with
      | error e => rw [hfa] at h; simp at h
      | ok b =>
          rw [hfa] at h
          cases hm : mapMExcept f as with
          | error e => rw [hm] at h; simp at h
          | ok bs' =>
              rw [hm] at h
              simp at h
              subst h
              simp only [mapMExcept, hf a b hfa, ih hm]

/-! ### Behaviour of the default-resource reclassification body -/

/-- The reclassified resource produced for a default-resource match. -/
def reclassify (key cls : String) (p r : OCIResource) : OCIResource :=
  if !p.omitFromExport then
    ((r.setAttr "manage_default_resource_id" (Value.str r.id)).setTerraformClass
      cls).setTerraformReferenceIdString (getTerraformReference p ++ "." ++ key)
  else
    (r.setAttr "manage_default_resource_id" (Value.str r.id)).setTerraformClass cls

theorem processDefaultResource_ok_of_match (key cls : String) (r p : OCIResource)
    (d : String) (hp : r.parent = some p)
    (hd : mapLookup p.sourceAttributes key = some (Value.str d)) (hid : r.id = d) :
    processDefaultResource key cls r = .ok (reclassify key cls p r) := by
  unfold processDefaultResource
  rw [hp]
  simp only [hd]
  unfold reclassify
  by_cases homit : p.omitFromExport <;> simp [hid, homit]

theorem processDefaultResource_ok_of_mismatch (key cls : String) (r p : OCIResource)
    (d : String) (hp : r.parent = some p)
    (hd : mapLookup p.sourceAttributes key = some (Value.str d)) (hid : r.id ≠ d) :
    processDefaultResource key cls r = .ok r := by
  unfold processDefaultResource
  rw [hp]
  simp only [hd]
  simp [hid]

theorem mapInsert_mapInsert_self {α : Type} (m : List (String × α)) (k : String) (v w : α) :
    mapInsert (mapInsert m k v) k w = mapInsert m k w := by
  induction m with
  | nil => simp [mapInsert]
  | cons p rest ih =>
      obtain ⟨k₀, v₀⟩ := p
      by_cases hk : k₀ = k
      · simp [mapInsert, hk]
      · simp [mapInsert, hk, ih]

/-- Normal form of `reclassify` on an explicit resource. -/
theorem reclassify_eq (key cls : String) (p : OCIResource)
    (i c n ri im cp : String) (o : Bool) (a : List (String × Value))
    (pr : Option OCIResource) :
    reclassify key cls p (.mk i c n ri im cp o a pr) =
      .mk i cls n
        (if !p.omitFromExport then getTerraformReference p ++ "." ++ key else ri) im cp o
        (mapInsert a "manage_default_resource_id" (Value.str i)) pr := by
  unfold reclassify
  by_cases homit : p.omitFromExport <;>
    simp [homit, OCIResource.setAttr, OCIResource.setSourceAttributes, OCIResource.id,
      OCIResource.setTerraformClass, OCIResource.setTerraformReferenceIdString,
      OCIResource.sourceAttributes]

theorem reclassify_id (key cls : String) (p r : OCIResource) :
    (reclassify key cls p r).id = r.id := by
  cases r
  rw [reclassify_eq]
  rfl

theorem reclassify_parent (key cls : String) (p r : OCIResource) :
    (reclassify key cls p r).parent = r.parent := by
  cases r
  rw [reclassify_eq]
  rfl

theorem reclassify_terraformClass (key cls : String) (p r : OCIResource) :
    (reclassify key cls p r).terraformClass = cls := by
  cases r
  rw [reclassify_eq]
  rfl

theorem reclassify_sourceAttributes (key cls : String) (p r : OCIResource) :
    (reclassify key cls p r).sourceAttributes =
      mapInsert r.sourceAttributes "manage_default_resource_id" (Value.str r.id) := by
  cases r
  rw [reclassify_eq]
  rfl

theorem reclassify_manage_attr (key cls : String) (p r : OCIResource) :
    mapLookup (reclassify key cls p r).sourceAttributes "manage_default_resource_id" =
      some (Value.str r.id) := by
  rw [reclassify_sourceAttributes, mapLookup_mapInsert_self]

theorem reclassify_refIdString_not_omitted (key cls : String) (p r : OCIResource)
    (h : p.omitFromExport = false) :
    (reclassify key cls p r).terraformReferenceIdString =
      getTerraformReference p ++ "." ++ key := by
  cases r
  rw [reclassify_eq]
  simp [h, OCIResource.terraformReferenceIdString]

theorem reclassify_refIdString_omitted (key cls : String) (p r : OCIResource)
    (h : p.omitFromExport = true) :
    (reclassify key cls p r).terraformReferenceIdString = r.terraformReferenceIdString := by
  cases r
  rw [reclassify_eq]
  simp [h, OCIResource.terraformReferenceIdString]

theorem reclassify_idem (key cls : String) (p r : OCIResource) :
    reclassify key cls p (reclassify key cls p r) = reclassify key cls p r := by
  cases r with
  | mk i c n ri im cp o a pr =>
      rw [reclassify_eq, reclassify_eq, mapInsert_mapInsert_self]
      by_cases homit : p.omitFromExport <;> simp [homit]

theorem processDefaultResource_idem (key cls : String) (r r' : OCIResource)
    (h : processDefaultResource key cls r = .ok r') :
    processDefaultResource key cls r' = .ok r' := by
  unfold processDefaultResource at h
  cases hp : r.parent with
  | none => rw [hp] at h; simp at h
  | some p =>
      rw [hp] at h
      dsimp only at h
      cases hd : mapLookup p.sourceAttributes key with
      | none => simp [hd] at h
      | some v =>
          cases v with
          | str d =>
              rw [hd] at h
              dsimp only at h
              by_cases hid : r.id = d
              · rw [if_pos hid] at h
                have hr' : r' = reclassify key cls p r := by
                  by_cases homit : p.omitFromExport
                  · rw [if_neg (by simp [homit])] at h
                    simp only [Except.ok.injEq] at h
                    rw [← h]
                    unfold reclassify
                    simp [homit]
                  · rw [if_pos (by simp [homit])] at h
                    simp only [Except.ok.injEq] at h
                    rw [← h]
                    unfold reclassify
                    simp [homit]
                subst hr'
                rw [processDefaultResource_ok_of_match key cls _ p d
                  (by rw [reclassify_parent]; exact hp) hd
                  (by rw [reclassify_id]; exact hid)]
                rw [reclassify_idem]
              · rw [if_neg hid] at h
                simp only [Except.ok.injEq] at h
                subst h
                exact processDefaultResource_ok_of_mismatch key cls r p d hp hd hid
          | int m => simp [hd] at h
          | bool b => simp [hd] at h
          | list l => simp [hd] at h
          | map m => simp [hd] at h
          | interp s => simp [hd] at h

/-! ### Behaviour of the load-balancer composite-id hooks -/

/-- The backend set produced by the `processLoadBalancerBackendSets` body. -/
def backendSetResult (p r : OCIResource) (bsn : String) : OCIResource :=
  (r.setId (getBackendSetCompositeId bsn p.id)).setAttr "load_balancer_id" (Value.str p.id)

theorem processBackendSet_ok (r p : OCIResource) (bsn : String)
    (hname : mapLookup r.sourceAttributes "name" = some (Value.str bsn))
    (hp : r.parent = some p) :
    processBackendSet r = .ok (backendSetResult p r bsn) := by
  unfold processBackendSet
  rw [hname]
  dsimp only
  rw [hp]
  rfl

theorem backendSetResult_id (p r : OCIResource) (bsn : String) :
    (backendSetResult p r bsn).id = getBackendSetCompositeId bsn p.id := by
  unfold backendSetResult
  rw [setAttr_id, setId_id]

theorem backendSetResult_lb (p r : OCIResource) (bsn : String) :
    mapLookup (backendSetResult p r bsn).sourceAttributes "load_balancer_id" =
      some (Value.str p.id) := by
  unfold backendSetResult
  rw [setAttr_sourceAttributes, mapLookup_mapInsert_self]

/-- The backend produced by the `processLoadBalancerBackends` body. -/
def backendResult (p r : OCIResource) (bn bsn lb : String) : OCIResource :=
  let r₂ := (r.setId (getBackendCompositeId bn bsn lb)).setAttr "load_balancer_id" (Value.str lb)
  if !p.omitFromExport then
    r₂.setAttr "backendset_name"
      (Value.interp (getDoubleExpHclString (getTerraformReference p) "name"))
  else r₂.setAttr "backendset_name" (Value.str bsn)

theorem processBackend_ok (r p : OCIResource) (bn bsn lb : String)
    (hp : r.parent = some p)
    (hbn : mapLookup r.sourceAttributes "name" = some (Value.str bn))
    (hbsn : mapLookup p.sourceAttributes "name" = some (Value.str bsn))
    (hlb : mapLookup p.sourceAttributes "load_balancer_id" = some (Value.str lb)) :
    processBackend r = .ok (backendResult p r bn bsn lb) := by
  unfold processBackend
  rw [hp]
  dsimp only
  rw [hbn, hbsn, hlb]
  dsimp only
  unfold backendResult
  by_cases homit : p.omitFromExport <;> simp [homit]

/-- Normal form of `backendResult` on an explicit resource. -/
theorem backendResult_eq (p : OCIResource) (bn bsn lb : String)
    (i c n ri im cp : String) (o : Bool) (a : List (String × Value))
    (pr : Option OCIResource) :
    backendResult p (.mk i c n ri im cp o a pr) bn bsn lb =
      .mk (getBackendCompositeId bn bsn lb) c n ri im cp o
        (mapInsert (mapInsert a "load_balancer_id" (Value.str lb)) "backendset_name"
          (if !p.omitFromExport then
            Value.interp (getDoubleExpHclString (getTerraformReference p) "name")
          else Value.str bsn)) pr := by
  unfold backendResult
  by_cases homit : p.omitFromExport <;>
    simp [homit, OCIResource.setAttr, OCIResource.setSourceAttributes, OCIResource.setId,
      OCIResource.sourceAttributes]

theorem backendResult_idem (p r : OCIResource) (bn bsn lb : String) :
    backendResult p (backendResult p r bn bsn lb) bn bsn lb = backendResult p r bn bsn lb := by
  cases r with
  | mk i c n ri im cp o a pr =>
      rw [backendResult_eq, backendResult_eq]
      have h1 : mapLookup (mapInsert (mapInsert a "load_balancer_id" (Value.str lb))
          "backendset_name" (if !p.omitFromExport then
            Value.interp (getDoubleExpHclString (getTerraformReference p) "name")
          else Value.str bsn)) "load_balancer_id" = some (Value.str lb) := by
        rw [mapLookup_mapInsert_ne _ _ _ _ (by decide), mapLookup_mapInsert_self]
      rw [mapInsert_self _ _ _ h1, mapInsert_self _ _ _ (mapLookup_mapInsert_self _ _ _)]

theorem backendResult_parent (p r : OCIResource) (bn bsn lb : String) :
    (backendResult p r bn bsn lb).parent = r.parent := by
  cases r
  rw [backendResult_eq]
  rfl

theorem backendResult_name (p r : OCIResource) (bn bsn lb : String) :
    mapLookup (backendResult p r bn bsn lb).sourceAttributes "name" =
      mapLookup r.sourceAttributes "name" := by
  cases r with
  | mk i c n ri im cp o a pr =>
      rw [backendResult_eq]
      show mapLookup (mapInsert (mapInsert a "load_balancer_id" (Value.str lb))
          "backendset_name" _) "name" = mapLookup a "name"
      rw [mapLookup_mapInsert_ne _ _ _ _ (by decide), mapLookup_mapInsert_ne _ _ _ _ (by decide)]

theorem processBackend_idem (r r' : OCIResource)
    (h : processBackend r = .ok r') : processBackend r' = .ok r' := by
  unfold processBackend at h
  cases hp : r.parent with
  | none => rw [hp] at h; simp at h
  | some p =>
      rw [hp] at h
      dsimp only at h
      cases hbn : mapLookup r.sourceAttributes "name" with
      | none => simp [hbn] at h
      | some v₁ =>
          rw [hbn] at h
          cases hbsn : mapLookup p.sourceAttributes "name" with
          | none => cases v₁ <;> simp [hbsn] at h
          | some v₂ =>
              rw [hbsn] at h
              cases hlb : mapLookup p.sourceAttributes "load_balancer_id" with
              | none => cases v₁ <;> cases v₂ <;> simp [hlb] at h
              | some v₃ =>
                  rw [hlb] at h
                  cases v₁ <;> cases v₂ <;> cases v₃ <;> dsimp only at h <;> try simp at h
                  rename_i bn bsn lb
                  have hr' : r' = backendResult p r bn bsn lb := by
                    unfold backendResult
                    by_cases homit : p.omitFromExport <;> simp [homit] at h ⊢ <;>
                      exact h.symm
                  subst hr'
                  rw [processBackend_ok _ p bn bsn lb
                    (by rw [backendResult_parent]; exact hp)
                    (by rw [backendResult_name]; exact hbn) hbsn hlb]
                  rw [backendResult_idem]

/-! ### Behaviour of the instance post-processing hook -/

/-- View of the `source_details` branch condition of `processInstances`:
`some (sd, tl)` exactly when the attribute is a non-empty list whose first
element is a map. -/
def sdView (r : OCIResource) : Option (List (String × Value) × List Value) :=
  match mapLookup r.sourceAttributes "source_details" with
  | some (Value.list (Value.map sd :: tl)) => some (sd, tl)
  | _ => none

theorem processInstance_eq (st : ExportState) (r : OCIResource) :
    processInstance st r =
      match sdView r with
      | none => .ok (registerBootVolumeRef st r, r)
      | some (sd, tl) =>
          match bootVolumeSizeStep (imageStep (registerBootVolumeRef st r) r sd).2 with
          | .error e => .error e
          | .ok sd₂ => .ok ((imageStep (registerBootVolumeRef st r) r sd).1,
              r.setAttr "source_details" (Value.list (Value.map sd₂ :: tl)))
    := by
  unfold processInstance sdView
  cases hsd : mapLookup r.sourceAttributes "source_details" with
  | none => rfl
  | some v =>
      cases v with
      | list l =>
          cases l with
          | nil => rfl
          | cons hd tl => cases hd <;> rfl
      | str s => rfl
      | int n => rfl
      | bool b => rfl
      | map m => rfl
      | interp s => rfl

theorem registerBootVolumeRef_vars (st : ExportState) (r : OCIResource) :
    (registerBootVolumeRef st r).vars = st.vars := by
  unfold registerBootVolumeRef
  cases mapLookup r.sourceAttributes "boot_volume_id" with
  | none => rfl
  | some v => cases v <;> rfl

theorem imageStep_snd_of_image (st : ExportState) (r : OCIResource)
    (sd : List (String × Value)) (img : String)
    (himg : mapLookup r.sourceAttributes "image" = some (Value.str img)) :
    (imageStep st r sd).2 = mapInsert sd "source_id" (Value.str img) := by
  unfold imageStep
  rw [himg]

theorem imageStep_fst_refMap_of_image (st : ExportState) (r : OCIResource)
    (sd : List (String × Value)) (img : String)
    (himg : mapLookup r.sourceAttributes "image" = some (Value.str img)) :
    (imageStep st r sd).1.referenceMap =
      mapInsert st.referenceMap img
        (getVarHclString (r.terraformName ++ "_source_image_id")) := by
  unfold imageStep
  rw [himg]

/-- When the `image` attribute is not a string, `imageStep` changes
nothing. -/
theorem imageStep_no_image (st : ExportState) (r : OCIResource)
    (sd : List (String × Value))
    (himg : ∀ img, mapLookup r.sourceAttributes "image" ≠ some (Value.str img)) :
    imageStep st r sd = (st, sd) := by
  unfold imageStep
  cases hv : mapLookup r.sourceAttributes "image" with
  | none => rfl
  | some v =>
      cases v with
      | str s => exact absurd hv (himg s)
      | int n => rfl
      | bool b => rfl
      | list l => rfl
      | map m => rfl
      | interp s => rfl

/-- `imageStep` leaves every source-details key other than `source_id`
unchanged. -/
theorem imageStep_snd_lookup_ne (st : ExportState) (r : OCIResource)
    (sd : List (String × Value)) (k : String) (hk : "source_id" ≠ k) :
    mapLookup (imageStep st r sd).2 k = mapLookup sd k := by
  unfold imageStep
  cases hv : mapLookup r.sourceAttributes "image" with
  | none => rfl
  | some v =>
      cases v <;> try rfl
      exact mapLookup_mapInsert_ne _ _ _ _ hk

theorem bootVolumeSizeStep_idem (sd sd₂ : List (String × Value))
    (h : bootVolumeSizeStep sd = .ok sd₂) : bootVolumeSizeStep sd₂ = .ok sd₂ := by
  unfold bootVolumeSizeStep at h
  cases hb : mapLookup sd "boot_volume_size_in_gbs" with
  | none =>
      rw [hb] at h
      simp only [Except.ok.injEq] at h
      subst h
      unfold bootVolumeSizeStep
      rw [hb]
  | some v =>
      rw [hb] at h
      cases v with
      | str s =>
          dsimp only at h
          cases hp : goParseInt s with
          | none => rw [hp] at h; simp at h
          | some n =>
              rw [hp] at h
              simp only [Except.ok.injEq] at h
              subst h
              by_cases hn : n < 50
              · rw [if_pos hn]
                unfold bootVolumeSizeStep
                rw [mapLookup_mapErase_self]
              · rw [if_neg hn]
                unfold bootVolumeSizeStep
                rw [hb]
                dsimp only
                rw [hp]
                dsimp only
                rw [if_neg hn]
      | int m => simp at h
      | bool b => simp at h
      | list l => simp at h
      | map m => simp at h
      | interp s => simp at h

/-- The fields of the processed instance other than `source_details` are
those of the input instance. -/
theorem processInstance_preserves (st st' : ExportState) (r r' : OCIResource)
    (h : processInstance st r = .ok (st', r')) :
    r'.id = r.id ∧ r'.terraformClass = r.terraformClass ∧
    r'.terraformName = r.terraformName ∧ r'.parent = r.parent ∧
    (∀ k, k ≠ "source_details" →
      mapLookup r'.sourceAttributes k = mapLookup r.sourceAttributes k) := by
  rw [processInstance_eq] at h
  cases hv : sdView r with
  | none =>
      rw [hv] at h
      simp only [Except.ok.injEq, Prod.mk.injEq] at h
      rw [← h.2]
      exact ⟨rfl, rfl, rfl, rfl, fun k _ => rfl⟩
  | some sdtl =>
      obtain ⟨sd, tl⟩ := sdtl
      rw [hv] at h
      dsimp only at h
      cases hbvs : bootVolumeSizeStep (imageStep (registerBootVolumeRef st r) r sd).2 with
      | error e => rw [hbvs] at h; simp at h
      | ok sd₂ =>
          rw [hbvs] at h
          simp only [Except.ok.injEq, Prod.mk.injEq] at h
          rw [← h.2]
          refine ⟨setAttr_id _ _ _, setAttr_terraformClass _ _ _,
            setAttr_terraformName _ _ _, setAttr_parent _ _ _, fun k hk => ?_⟩
          rw [setAttr_sourceAttributes]
          exact mapLookup_mapInsert_ne _ _ _ _ (fun he => hk he.symm)

theorem processInstance_tag (st st' : ExportState) (r r' : OCIResource)
    (h : processInstance st r = .ok (st', r')) :
    hasInstancePoolTag r' = hasInstancePoolTag r := by
  have hpres := (processInstance_preserves st st' r r' h).2.2.2.2
  unfold hasInstancePoolTag
  rw [hpres "freeform_tags" (by decide)]

theorem processInstance_idem (st st' : ExportState) (r r' : OCIResource)
    (h : processInstance st r = .ok (st', r')) :
    ∀ st₂, ∃ st₃, processInstance st₂ r' = .ok (st₃, r') := by
  intro st₂
  have hpres := (processInstance_preserves st st' r r' h).2.2.2.2
  rw [processInstance_eq] at h
  cases hv : sdView r with
  | none =>
      rw [hv] at h
      simp only [Except.ok.injEq, Prod.mk.injEq] at h
      refine ⟨registerBootVolumeRef st₂ r', ?_⟩
      rw [processInstance_eq]
      have hv' : sdView r' = none := by
        rw [← h.2]
        exact hv
      rw [hv']
  | some sdtl =>
      obtain ⟨sd, tl⟩ := sdtl
      rw [hv] at h
      dsimp only at h
      cases hbvs : bootVolumeSizeStep (imageStep (registerBootVolumeRef st r) r sd).2 with
      | error e => rw [hbvs] at h; simp at h
      | ok sd₂ =>
          rw [hbvs] at h
          simp only [Except.ok.injEq, Prod.mk.injEq] at h
          have hr' : r' = r.setAttr "source_details" (Value.list (Value.map sd₂ :: tl)) :=
            h.2.symm
          have hv' : sdView r' = some (sd₂, tl) := by
            unfold sdView
            rw [hr', setAttr_sourceAttributes, mapLookup_mapInsert_self]
          -- the second image step leaves the already rewritten map unchanged
          have himgeq : ∀ stx, (imageStep stx r' sd₂).2 = sd₂ := by
            intro stx
            cases himg : mapLookup r.sourceAttributes "image" with
            | none =>
                rw [imageStep_no_image]
                intro img hc
                rw [hr', setAttr_sourceAttributes,
                  mapLookup_mapInsert_ne _ _ _ _ (by decide)] at hc
                rw [himg] at hc
                cases hc
            | some v =>
                cases v with
                | str img =>
                    have himg' : mapLookup r'.sourceAttributes "image"
                        = some (Value.str img) := by
                      rw [hr', setAttr_sourceAttributes,
                        mapLookup_mapInsert_ne _ _ _ _ (by decide), himg]
                    rw [imageStep_snd_of_image _ _ _ _ himg']
                    apply mapInsert_self
                    -- `source_id` survives the boot-volume-size step
                    have hsd1 : mapLookup (imageStep (registerBootVolumeRef st r) r sd).2
                        "source_id" = some (Value.str img) := by
                      rw [imageStep_snd_of_image _ _ _ _ himg, mapLookup_mapInsert_self]
                    -- relate sd₂ to the pre-step map
                    unfold bootVolumeSizeStep at hbvs
                    cases hb : mapLookup (imageStep (registerBootVolumeRef st r) r sd).2
                        "boot_volume_size_in_gbs" with
                    | none =>
                        rw [hb] at hbvs
                        simp only [Except.ok.injEq] at hbvs
                        rw [← hbvs]
                        exact hsd1
                    | some w =>
                        rw [hb] at hbvs
                        cases w with
                        | str s =>
                            dsimp only at hbvs
                            cases hps : goParseInt s with
                            | none => rw [hps] at hbvs; simp at hbvs
                            | some n =>
                                rw [hps] at hbvs
                                simp only [Except.ok.injEq] at hbvs
                                rw [← hbvs]
                                by_cases hn : n < 50
                                · rw [if_pos hn,
                                    mapLookup_mapErase_ne _ _ _ (by decide)]
                                  exact hsd1
                                · rw [if_neg hn]
                                  exact hsd1
                        | int m => simp at hbvs
                        | bool b => simp at hbvs
                        | list l => simp at hbvs
                        | map m => simp at hbvs
                        | interp s => simp at hbvs
                | int m =>
                    rw [imageStep_no_image]
                    intro img hc
                    rw [hr', setAttr_sourceAttributes,
                      mapLookup_mapInsert_ne _ _ _ _ (by decide), himg] at hc
                    cases hc
                | bool b =>
                    rw [imageStep_no_image]
                    intro img hc
                    rw [hr', setAttr_sourceAttributes,
                      mapLookup_mapInsert_ne _ _ _ _ (by decide), himg] at hc
                    cases hc
                | list l =>
                    rw [imageStep_no_image]
                    intro img hc
                    rw [hr', setAttr_sourceAttributes,
                      mapLookup_mapInsert_ne _ _ _ _ (by decide), himg] at hc
                    cases hc
                | map m =>
                    rw [imageStep_no_image]
                    intro img hc
                    rw [hr', setAttr_sourceAttributes,
                      mapLookup_mapInsert_ne _ _ _ _ (by decide), himg] at hc
                    cases hc
                | interp s =>
                    rw [imageStep_no_image]
                    intro img hc
                    rw [hr', setAttr_sourceAttributes,
                      mapLookup_mapInsert_ne _ _ _ _ (by decide), himg] at hc
                    cases hc
          have hset : r'.setAttr "source_details" (Value.list (Value.map sd₂ :: tl)) = r' := by
            apply setAttr_self
            rw [hr', setAttr_sourceAttributes, mapLookup_mapInsert_self]
          refine ⟨(imageStep (registerBootVolumeRef st₂ r') r' sd₂).1, ?_⟩
          rw [processInstance_eq, hv']
          dsimp only
          rw [himgeq, bootVolumeSizeStep_idem _ _ hbvs]
          dsimp only
          rw [hset]

theorem processInstances_idem (st st' : ExportState) (rs rs' : List OCIResource)
    (h : processInstances st rs = .ok (st', rs')) :
    ∀ st₂, ∃ st₃, processInstances st₂ rs' = .ok (st₃, rs') := by
  induction rs generalizing st st' rs' with
  | nil =>
      simp only [processInstances] at h
      simp only [Except.ok.injEq, Prod.mk.injEq] at h
      intro st₂
      rw [← h.2]
      exact ⟨st₂, rfl⟩
  | cons r rest ih =>
      simp only [processInstances] at h
      by_cases htag : hasInstancePoolTag r
      · rw [if_pos htag] at h
        exact ih st st' rs' h
      · rw [if_neg htag] at h
        cases hpi : processInstance st r with
        | error e => rw [hpi] at h; simp at h
        | ok p₁ =>
            obtain ⟨stA, r₁⟩ := p₁
            rw [hpi] at h
            try dsimp only at h
            cases hrest : processInstances stA rest with
            | error e => rw [hrest] at h; simp at h
            | ok p₂ =>
                obtain ⟨stB, rest₁⟩ := p₂
                rw [hrest] at h
                simp only [Except.ok.injEq, Prod.mk.injEq] at h
                intro st₂
                rw [← h.2]
                simp only [processInstances]
                have htag₁ : hasInstancePoolTag r₁ = false := by
                  rw [processInstance_tag st stA r r₁ hpi]
                  simpa using htag
                rw [htag₁]
                rw [if_neg (by simp)]
                obtain ⟨st₃, hpi₂⟩ := processInstance_idem st stA r r₁ hpi st₂
                rw [hpi₂]
                try dsimp only
                obtain ⟨st₄, hrest₂⟩ := ih stA stB rest₁ hrest st₃
                rw [hrest₂]
                exact ⟨st₄, rfl⟩

theorem processInstances_ids (st st' : ExportState) (rs rs' : List OCIResource)
    (h : processInstances st rs = .ok (st', rs')) :
    rs'.map OCIResource.id =
      (rs.filter (fun r => !hasInstancePoolTag r)).map OCIResource.id ∧
    ∀ r' ∈ rs', hasInstancePoolTag r' = false := by
  induction rs generalizing st st' rs' with
  | nil =>
      simp only [processInstances] at h
      simp only [Except.ok.injEq, Prod.mk.injEq] at h
      rw [← h.2]
      exact ⟨rfl, by simp⟩
  | cons r rest ih =>
      simp only [processInstances] at h
      by_cases htag : hasInstancePoolTag r
      · rw [if_pos htag] at h
        obtain ⟨hids, htags⟩ := ih st st' rs' h
        refine ⟨?_, htags⟩
        rw [List.filter_cons_of_neg (by simpa using htag)]
        exact hids
      · rw [if_neg htag] at h
        cases hpi : processInstance st r with
        | error e => rw [hpi] at h; simp at h
        | ok p₁ =>
            obtain ⟨stA, r₁⟩ := p₁
            rw [hpi] at h
            try dsimp only at h
            cases hrest : processInstances stA rest with
            | error e => rw [hrest] at h; simp at h
            | ok p₂ =>
                obtain ⟨stB, rest₁⟩ := p₂
                rw [hrest] at h
                simp only [Except.ok.injEq, Prod.mk.injEq] at h
                obtain ⟨hids, htags⟩ := ih stA stB rest₁ hrest
                rw [← h.2]
                constructor
                · rw [List.filter_cons_of_pos (by simpa using htag)]
                  simp only [List.map_cons]
                  rw [hids, (processInstance_preserves st stA r r₁ hpi).1]
                · intro r₂ hr₂
                  rcases List.mem_cons.mp hr₂ with hh | hh
                  · subst hh
                    rw [processInstance_tag st stA r r₂ hpi]
                    simpa using htag
                  · exact htags r₂ hh

theorem processInstances_correspond (st st' : ExportState) (rs rs' : List OCIResource)
    (h : processInstances st rs = .ok (st', rs')) :
    List.Forall₂ (fun r r' => ∃ stA stB, processInstance stA r = .ok (stB, r'))
      (rs.filter (fun r => !hasInstancePoolTag r)) rs' := by
  induction rs generalizing st st' rs' with
  | nil =>
      simp only [processInstances] at h
      simp only [Except.ok.injEq, Prod.mk.injEq] at h
      rw [← h.2]
      simp
  | cons r rest ih =>
      simp only [processInstances] at h
      by_cases htag : hasInstancePoolTag r
      · rw [if_pos htag] at h
        rw [List.filter_cons_of_neg (by simpa using htag)]
        exact ih st st' rs' h
      · rw [if_neg htag] at h
        cases hpi : processInstance st r with
        | error e => rw [hpi] at h; simp at h
        | ok p₁ =>
            obtain ⟨stA, r₁⟩ := p₁
            rw [hpi] at h
            try dsimp only at h
            cases hrest : processInstances stA rest with
            | error e => rw [hrest] at h; simp at h
            | ok p₂ =>
                obtain ⟨stB, rest₁⟩ := p₂
                rw [hrest] at h
                simp only [Except.ok.injEq, Prod.mk.injEq] at h
                rw [← h.2]
                rw [List.filter_cons_of_pos (by simpa using htag)]
                exact List.Forall₂.cons ⟨st, stA, hpi⟩ (ih stA stB rest₁ hrest)

theorem processInstance_bvs (stA stB : ExportState) (r r' : OCIResource)
    (sd : List (String × Value)) (tl : List Value) (s : String)
    (h : processInstance stA r = .ok (stB, r'))
    (hsd : mapLookup r.sourceAttributes "source_details" =
      some (Value.list (Value.map sd :: tl)))
    (hbvs : mapLookup sd "boot_volume_size_in_gbs" = some (Value.str s)) :
    ∃ n, goParseInt s = some n ∧
      ∃ sd', mapLookup r'.sourceAttributes "source_details" =
          some (Value.list (Value.map sd' :: tl)) ∧
        (n < 50 → mapLookup sd' "boot_volume_size_in_gbs" = none) ∧
        (¬n < 50 → mapLookup sd' "boot_volume_size_in_gbs" = some (Value.str s)) := by
  rw [processInstance_eq] at h
  have hv : sdView r = some (sd, tl) := by unfold sdView; rw [hsd]
  rw [hv] at h
  dsimp only at h
  have hX : mapLookup (imageStep (registerBootVolumeRef stA r) r sd).2
      "boot_volume_size_in_gbs" = some (Value.str s) := by
    rw [imageStep_snd_lookup_ne _ _ _ _ (by decide)]
    exact hbvs
  cases hbstep : bootVolumeSizeStep (imageStep (registerBootVolumeRef stA r) r sd).2 with
  | error e => rw [hbstep] at h; simp at h
  | ok sd₂ =>
      rw [hbstep] at h
      simp only [Except.ok.injEq, Prod.mk.injEq] at h
      unfold bootVolumeSizeStep at hbstep
      rw [hX] at hbstep
      dsimp only at hbstep
      cases hp : goParseInt s with
      | none => rw [hp] at hbstep; simp at hbstep
      | some n =>
          rw [hp] at hbstep
          simp only [Except.ok.injEq] at hbstep
          refine ⟨n, rfl, sd₂, ?_, ?_, ?_⟩
          · rw [← h.2, setAttr_sourceAttributes, mapLookup_mapInsert_self]
          · intro hn
            rw [← hbstep, if_pos hn, mapLookup_mapErase_self]
          · intro hn
            rw [← hbstep, if_neg hn]
            exact hX

theorem processInstance_error_bvs (st : ExportState) (r : OCIResource)
    (sd : List (String × Value)) (tl : List Value) (s : String)
    (hsd : mapLookup r.sourceAttributes "source_details" =
      some (Value.list (Value.map sd :: tl)))
    (hbvs : mapLookup sd "boot_volume_size_in_gbs" = some (Value.str s))
    (hparse : goParseInt s = none) :
    processInstance st r =
      .error ("strconv.ParseInt: parsing \"" ++ s ++ "\": invalid syntax") := by
  rw [processInstance_eq]
  have hv : sdView r = some (sd, tl) := by unfold sdView; rw [hsd]
  rw [hv]
  dsimp only
  have hX : mapLookup (imageStep (registerBootVolumeRef st r) r sd).2
      "boot_volume_size_in_gbs" = some (Value.str s) := by
    rw [imageStep_snd_lookup_ne _ _ _ _ (by decide)]
    exact hbvs
  unfold bootVolumeSizeStep
  rw [hX]
  dsimp only
  rw [hparse]

theorem processInstances_error_bvs (st : ExportState) (rs : List OCIResource)
    (r : OCIResource) (sd : List (String × Value)) (tl : List Value) (s : String)
    (hmem : r ∈ rs) (htag : hasInstancePoolTag r = false)
    (hsd : mapLookup r.sourceAttributes "source_details" =
      some (Value.list (Value.map sd :: tl)))
    (hbvs : mapLookup sd "boot_volume_size_in_gbs" = some (Value.str s))
    (hparse : goParseInt s = none) :
    ∃ e, processInstances st rs = .error e := by
  induction rs generalizing st with
  | nil => cases hmem
  | cons a as ih =>
      simp only [processInstances]
      rcases List.mem_cons.mp hmem with hh | hh
      · subst hh
        rw [if_neg (by simp [htag])]
        rw [processInstance_error_bvs st r sd tl s hsd hbvs hparse]
        exact ⟨_, rfl⟩
      · by_cases hta : hasInstancePoolTag a
        · rw [if_pos hta]
          exact ih st hh
        · rw [if_neg hta]
          cases hpi : processInstance st a with
          | error e => exact ⟨e, rfl⟩
          | ok p₁ =>
              obtain ⟨stA, a₁⟩ := p₁
              dsimp only
              obtain ⟨e, he⟩ := ih stA hh
              rw [he]
              exact ⟨e, rfl⟩

/-! ### Behaviour of the availability-domain and namespace hooks -/

/-- The failure condition of `processAvailabilityDomains` for one domain:
`name` missing, not a string, or empty. -/
def adNameBad (r : OCIResource) : Bool :=
  match mapLookup r.sourceAttributes "name" with
  | some (Value.str nm) => decide (nm = "")
  | _ => true

/-- The failure condition of `processObjectStorageNamespace` for one
namespace resource: `namespace` missing, not a string, or empty. -/
def nsNameBad (r : OCIResource) : Bool :=
  match mapLookup r.sourceAttributes "namespace" with
  | some (Value.str nm) => decide (nm = "")
  | _ => true

/-- Attribute `k` is absent or not a string. -/
def attrNotString (r : OCIResource) (k : String) : Bool :=
  match mapLookup r.sourceAttributes k with
  | some (Value.str _) => false
  | _ => true

theorem processADs_error_iff (st : ExportState) (rs : List OCIResource) (idx : Nat) :
    (∃ e, processADs st rs idx = .error e) ↔ ∃ r ∈ rs, adNameBad r = true := by
  induction rs generalizing st idx with
  | nil => simp [processADs]
  | cons ad rest ih =>
      simp only [processADs]
      cases hn : mapLookup ad.sourceAttributes "name" with
      | none =>
          simp only [adNameBad]
          constructor
          · intro _
            exact ⟨ad, List.mem_cons_self _ _, by rw [hn]⟩
          · intro _
            exact ⟨adNoNameError idx, rfl⟩
      | some v =>
          cases v with
          | str nm =>
              dsimp only
              by_cases hnm : nm = ""
              · rw [if_pos hnm]
                constructor
                · intro _
                  exact ⟨ad, List.mem_cons_self _ _, by simp [adNameBad, hn, hnm]⟩
                · intro _
                  exact ⟨adNoNameError idx, rfl⟩
              · rw [if_neg hnm]
                constructor
                · intro ⟨e, he⟩
                  cases hrest : processADs
                      { st with referenceMap := (mapInsert st.referenceMap nm
                        (getDataSourceHclString
                          (getTerraformReference (ad.setAttr "index" (Value.int (idx + 1))))
                          "name")) } rest (idx + 1) with
                  | error e' =>
                      obtain ⟨r, hr, hbad⟩ := (ih _ _).mp ⟨e', hrest⟩
                      exact ⟨r, List.mem_cons_of_mem _ hr, hbad⟩
                  | ok p => rw [hrest] at he; simp at he
                · intro ⟨r, hr, hbad⟩
                  rcases List.mem_cons.mp hr with hh | hh
                  · subst hh
                    simp [adNameBad, hn, hnm] at hbad
                  · obtain ⟨e, he⟩ := (ih _ _).mpr ⟨r, hh, hbad⟩
                    rw [he]
                    exact ⟨e, rfl⟩
          | int n =>
              simp only [adNameBad]
              exact ⟨fun _ => ⟨ad, List.mem_cons_self _ _, by rw [hn]⟩,
                fun _ => ⟨adNoNameError idx, rfl⟩⟩
          | bool b =>
              simp only [adNameBad]
              exact ⟨fun _ => ⟨ad, List.mem_cons_self _ _, by rw [hn]⟩,
                fun _ => ⟨adNoNameError idx, rfl⟩⟩
          | list l =>
              simp only [adNameBad]
              exact ⟨fun _ => ⟨ad, List.mem_cons_self _ _, by rw [hn]⟩,
                fun _ => ⟨adNoNameError idx, rfl⟩⟩
          | map m =>
              simp only [adNameBad]
              exact ⟨fun _ => ⟨ad, List.mem_cons_self _ _, by rw [hn]⟩,
                fun _ => ⟨adNoNameError idx, rfl⟩⟩
          | interp s =>
              simp only [adNameBad]
              exact ⟨fun _ => ⟨ad, List.mem_cons_self _ _, by rw [hn]⟩,
                fun _ => ⟨adNoNameError idx, rfl⟩⟩

theorem processObjectStorageNamespace_error_iff (st : ExportState)
    (rs : List OCIResource) :
    (∃ e, processObjectStorageNamespace st rs = .error e) ↔
      ∃ r ∈ rs, nsNameBad r = true := by
  induction rs generalizing st with
  | nil => simp [processObjectStorageNamespace]
  | cons ns rest ih =>
      simp only [processObjectStorageNamespace]
      cases hn : mapLookup ns.sourceAttributes "namespace" with
      | none =>
          simp only [nsNameBad]
          exact ⟨fun _ => ⟨ns, List.mem_cons_self _ _, by rw [hn]⟩, fun _ => ⟨_, rfl⟩⟩
      | some v =>
          cases v with
          | str nm =>
              dsimp only
              by_cases hnm : nm = ""
              · rw [if_pos hnm]
                exact ⟨fun _ => ⟨ns, List.mem_cons_self _ _, by simp [nsNameBad, hn, hnm]⟩,
                  fun _ => ⟨_, rfl⟩⟩
              · rw [if_neg hnm]
                constructor
                · intro ⟨e, he⟩
                  cases hrest : processObjectStorageNamespace
                      { st with referenceMap := (mapInsert st.referenceMap nm
                        (getDataSourceHclString (getTerraformReference ns) "namespace")) }
                      rest with
                  | error e' =>
                      obtain ⟨r, hr, hbad⟩ := (ih _).mp ⟨e', hrest⟩
                      exact ⟨r, List.mem_cons_of_mem _ hr, hbad⟩
                  | ok p => rw [hrest] at he; simp at he
                · intro ⟨r, hr, hbad⟩
                  rcases List.mem_cons.mp hr with hh | hh
                  · subst hh
                    simp [nsNameBad, hn, hnm] at hbad
                  · obtain ⟨e, he⟩ := (ih _).mpr ⟨r, hh, hbad⟩
                    rw [he]
                    exact ⟨e, rfl⟩
          | int n =>
              simp only [nsNameBad]
              exact ⟨fun _ => ⟨ns, List.mem_cons_self _ _, by rw [hn]⟩, fun _ => ⟨_, rfl⟩⟩
          | bool b =>
              simp only [nsNameBad]
              exact ⟨fun _ => ⟨ns, List.mem_cons_self _ _, by rw [hn]⟩, fun _ => ⟨_, rfl⟩⟩
          | list l =>
              simp only [nsNameBad]
              exact ⟨fun _ => ⟨ns, List.mem_cons_self _ _, by rw [hn]⟩, fun _ => ⟨_, rfl⟩⟩
          | map m =>
              simp only [nsNameBad]
              exact ⟨fun _ => ⟨ns, List.mem_cons_self _ _, by rw [hn]⟩, fun _ => ⟨_, rfl⟩⟩
          | interp s =>
              simp only [nsNameBad]
              exact ⟨fun _ => ⟨ns, List.mem_cons_self _ _, by rw [hn]⟩, fun _ => ⟨_, rfl⟩⟩

theorem getObjectStorageBucketId_error_iff (r : OCIResource) :
    (∃ e, getObjectStorageBucketId r = .error e) ↔
      (attrNotString r "name" = true ∨ attrNotString r "namespace" = true) := by
  unfold getObjectStorageBucketId attrNotString
  cases hn : mapLookup r.sourceAttributes "name" with
  | none => simp
  | some v =>
      cases v with
      | str nm =>
          dsimp only
          cases hns : mapLookup r.sourceAttributes "namespace" with
          | none => simp
          | some w => cases w <;> simp
      | int n => simp
      | bool b => simp
      | list l => simp
      | map m => simp
      | interp s => simp

theorem processADs_ok_cons (st : ExportState) (ad : OCIResource)
    (rest : List OCIResource) (idx : Nat) (st' : ExportState) (rs' : List OCIResource)
    (h : processADs st (ad :: rest) idx = .ok (st', rs')) :
    ∃ nm, mapLookup ad.sourceAttributes "name" = some (Value.str nm) ∧ nm ≠ "" ∧
      ∃ rest', rs' = ad.setAttr "index" (Value.int (idx + 1)) :: rest' ∧
        processADs { st with referenceMap := (mapInsert st.referenceMap nm
          (getDataSourceHclString
            (getTerraformReference (ad.setAttr "index" (Value.int (idx + 1)))) "name")) }
          rest (idx + 1) = .ok (st', rest') := by
  simp only [processADs] at h
  cases hn : mapLookup ad.sourceAttributes "name" with
  | none => rw [hn] at h; simp at h
  | some v =>
      rw [hn] at h
      cases v with
      | str nm =>
          dsimp only at h
          by_cases hnm : nm = ""
          · rw [if_pos hnm] at h; simp at h
          · rw [if_neg hnm] at h
            cases hrest : processADs { st with referenceMap := (mapInsert st.referenceMap nm
                (getDataSourceHclString
                  (getTerraformReference (ad.setAttr "index" (Value.int (idx + 1)))) "name")) }
                rest (idx + 1) with
            | error e => rw [hrest] at h; simp at h
            | ok p =>
                obtain ⟨stB, rest'⟩ := p
                rw [hrest] at h
                simp only [Except.ok.injEq, Prod.mk.injEq] at h
                exact ⟨nm, rfl, hnm, rest', by rw [← h.2], by rw [hrest, h.1]⟩
      | int n => simp at h
      | bool b => simp at h
      | list l => simp at h
      | map m => simp at h
      | interp s => simp at h

theorem processADs_ok_get (st : ExportState) (rs : List OCIResource) (idx : Nat)
    (st' : ExportState) (rs' : List OCIResource)
    (h : processADs st rs idx = .ok (st', rs')) :
    rs'.length = rs.length ∧
    ∀ i (hi : i < rs.length) (hi' : i < rs'.length),
      rs'.get ⟨i, hi'⟩ = (rs.get ⟨i, hi⟩).setAttr "index" (Value.int (idx + i + 1)) := by
  induction rs generalizing st idx st' rs' with
  | nil =>
      simp only [processADs] at h
      simp only [Except.ok.injEq, Prod.mk.injEq] at h
      rw [← h.2]
      exact ⟨rfl, fun i hi => by simp at hi⟩
  | cons ad rest ih =>
      obtain ⟨nm, hn, hnm, rest', hrs', hrest⟩ := processADs_ok_cons st ad rest idx st' rs' h
      obtain ⟨hlen, hget⟩ := ih _ _ _ _ hrest
      subst hrs'
      refine ⟨by simp [hlen], ?_⟩
      intro i hi hi'
      match i with
      | 0 => rfl
      | n + 1 =>
          simp only [List.get]
          rw [hget n (by simpa using hi) (by simpa using hi')]
          congr 2
          omega

theorem processADs_refmap (st : ExportState) (rs : List OCIResource) (idx : Nat)
    (st' : ExportState) (rs' : List OCIResource)
    (h : processADs st rs idx = .ok (st', rs')) :
    ∀ k, (mapLookup st'.referenceMap k = mapLookup st.referenceMap k) ∨
      (∃ ad' ∈ rs', mapLookup ad'.sourceAttributes "name" = some (Value.str k) ∧
        mapLookup st'.referenceMap k =
          some (getDataSourceHclString (getTerraformReference ad') "name")) := by
  induction rs generalizing st idx st' rs' with
  | nil =>
      simp only [processADs] at h
      simp only [Except.ok.injEq, Prod.mk.injEq] at h
      intro k
      rw [← h.1]
      exact Or.inl rfl
  | cons ad rest ih =>
      obtain ⟨nm, hn, hnm, rest', hrs', hrest⟩ := processADs_ok_cons st ad rest idx st' rs' h
      intro k
      rcases ih _ _ _ _ hrest k with hsame | ⟨ad', hmem, hname, hval⟩
      · by_cases hk : nm = k
        · subst hk
          refine Or.inr ⟨ad.setAttr "index" (Value.int (idx + 1)), ?_, ?_, ?_⟩
          · rw [hrs']; exact List.mem_cons_self _ _
          · rw [setAttr_sourceAttributes, mapLookup_mapInsert_ne _ _ _ _ (by decide)]
            exact hn
          · rw [hsame]
            exact mapLookup_mapInsert_self _ _ _
        · left
          rw [hsame]
          exact mapLookup_mapInsert_ne _ _ _ _ hk
      · refine Or.inr ⟨ad', ?_, hname, hval⟩
        rw [hrs']
        exact List.mem_cons_of_mem _ hmem

theorem processADs_entry (st : ExportState) (rs : List OCIResource) (idx : Nat)
    (st' : ExportState) (rs' : List OCIResource)
    (h : processADs st rs idx = .ok (st', rs')) :
    ∀ ad₀ ∈ rs', ∀ nm, mapLookup ad₀.sourceAttributes "name" = some (Value.str nm) →
      ∃ ad' ∈ rs', mapLookup ad'.sourceAttributes "name" = some (Value.str nm) ∧
        mapLookup st'.referenceMap nm =
          some (getDataSourceHclString (getTerraformReference ad') "name") := by
  induction rs generalizing st idx st' rs' with
  | nil =>
      simp only [processADs] at h
      simp only [Except.ok.injEq, Prod.mk.injEq] at h
      rw [← h.2]
      intro ad₀ hmem
      cases hmem
  | cons ad rest ih =>
      obtain ⟨nm₀, hn, hnm, rest', hrs', hrest⟩ := processADs_ok_cons st ad rest idx st' rs' h
      intro ad₀ hmem nm hname
      rw [hrs'] at hmem
      rcases List.mem_cons.mp hmem with hh | hh
      · -- the head: its name is nm₀
        have hnm_eq : nm = nm₀ := by
          subst hh
          rw [setAttr_sourceAttributes, mapLookup_mapInsert_ne _ _ _ _ (by decide), hn] at hname
          cases hname
          rfl
        subst hnm_eq
        rcases processADs_refmap _ _ _ _ _ hrest nm with hsame | ⟨ad', hmem', hname', hval⟩
        · refine ⟨ad.setAttr "index" (Value.int (idx + 1)), ?_, ?_, ?_⟩
          · rw [hrs']; exact List.mem_cons_self _ _
          · rw [setAttr_sourceAttributes, mapLookup_mapInsert_ne _ _ _ _ (by decide)]
            exact hn
          · rw [hsame]
            exact mapLookup_mapInsert_self _ _ _
        · exact ⟨ad', by rw [hrs']; exact List.mem_cons_of_mem _ hmem', hname', hval⟩
      · obtain ⟨ad', hmem', hname', hval⟩ := ih _ _ _ _ hrest ad₀ hh nm hname
        exact ⟨ad', by rw [hrs']; exact List.mem_cons_of_mem _ hmem', hname', hval⟩

theorem getAvailabilityDomainHCLDatasource_ok (r : OCIResource)
    (varMap : List (String × String)) (n : Int)
    (hidx : mapLookup r.sourceAttributes "index" = some (Value.int n)) :
    getAvailabilityDomainHCLDatasource r varMap =
      .ok (("data " ++ r.terraformClass ++ " " ++ r.terraformName ++ " \x7b\n" ++
        ("compartment_id = " ++ (mapLookup varMap r.compartmentId).getD "" ++ "\n")) ++
        "ad_number = \"" ++ toString n ++ "\"\n" ++ "\x7d\n") := by
  unfold getAvailabilityDomainHCLDatasource
  rw [hidx]

/-! ### Behaviour of the pagination loops -/

theorem collectRemainingPages_pagesFetcher {α : Type} (pages : List (List α)) :
    ∀ (fuel i : Nat) (acc : List α), i < pages.length → pages.length - i ≤ fuel →
      collectRemainingPages (pagesFetcher pages) fuel acc (some i) =
        .ok (acc ++ (pages.drop i).flatten) := by
  intro fuel
  induction fuel with
  | zero => intro i acc hi hf; omega
  | succ fuel ih =>
      intro i acc hi hf
      cases hdrop : pages.drop i with
      | nil =>
          exfalso
          have := List.drop_eq_nil_iff.mp hdrop
          omega
      | cons p rest =>
          have hrest : rest = pages.drop (i + 1) := by
            have h2 : (pages.drop i).drop 1 = pages.drop (i + 1) := List.drop_drop 1 i pages
            rw [hdrop] at h2
            simpa using h2
          simp only [collectRemainingPages, pagesFetcher, Option.getD, hdrop]
          by_cases hnext : i + 1 < pages.length
          · rw [if_pos hnext]
            simp only [List.head?_cons]
            try dsimp only
            rw [ih (i + 1) (acc ++ p) hnext (by omega), ← hrest]
            simp
          · rw [if_neg hnext]
            have hnil : pages.drop (i + 1) = [] := List.drop_eq_nil_iff.mpr (by omega)
            rw [← hrest] at hnil
            subst hnil
            simp only [List.head?_cons]
            try dsimp only
            simp [collectRemainingPages]


theorem findIdentityTagsAllPages_flatten {α : Type} (pages : List (List α)) (fuel : Nat)
    (hf : pages.length ≤ fuel) :
    findIdentityTagsAllPages (pagesFetcher pages) fuel = .ok pages.flatten := by
  unfold findIdentityTagsAllPages
  cases hp : pages with
  | nil => simp [pagesFetcher, collectRemainingPages]
  | cons p rest =>
      subst hp
      simp only [pagesFetcher, Option.getD]
      simp only [List.drop_zero, List.head?_cons]
      by_cases hnext : 0 + 1 < (p :: rest).length
      · rw [if_pos hnext]
        try dsimp only
        rw [collectRemainingPages_pagesFetcher (p :: rest) fuel 1 p (by simpa using hnext)
          (by simp only [List.length_cons] at hf ⊢; omega)]
        simp
      · rw [if_neg hnext]
        try dsimp only
        have : rest = [] := by
          simp only [List.length_cons] at hnext
          have : rest.length = 0 := by omega
          exact List.length_eq_zero.mp this
        subst this
        simp [collectRemainingPages]

theorem collectRemainingPages_err {α : Type} (pages : List (List α)) (k : Nat) (e : String) :
    ∀ (fuel i : Nat) (acc : List α), 0 < i → i ≤ k → k < pages.length → k - i < fuel →
      collectRemainingPages (pagesFetcherWithErr pages k e) fuel acc (some i) =
        .error e := by
  intro fuel
  induction fuel with
  | zero => intro i acc h0 hik hk hf; omega
  | succ fuel ih =>
      intro i acc h0 hik hk hf
      by_cases hike : i = k
      · subst hike
        simp [collectRemainingPages, pagesFetcherWithErr]
      · have hilt : i < k := by omega
        cases hdrop : pages.drop i with
        | nil =>
            exfalso
            have := List.drop_eq_nil_iff.mp hdrop
            omega
        | cons p rest =>
            simp only [collectRemainingPages, pagesFetcherWithErr, Option.getD]
            rw [if_neg hike]
            simp only [pagesFetcher, Option.getD, hdrop, List.head?_cons]
            rw [if_pos (by omega)]
            try dsimp only
            exact ih (i + 1) (acc ++ p) (by omega) (by omega) hk (by omega)

theorem findIdentityTagsAllPages_err {α : Type} (pages : List (List α)) (k : Nat)
    (e : String) (fuel : Nat) (hk : k < pages.length) (hf : pages.length ≤ fuel) :
    findIdentityTagsAllPages (pagesFetcherWithErr pages k e) fuel = .error e := by
  unfold findIdentityTagsAllPages
  by_cases hk0 : k = 0
  · subst hk0
    simp [pagesFetcherWithErr]
  · have h1 : 1 ≤ k := by omega
    simp only [pagesFetcherWithErr, Option.getD]
    rw [if_neg (by omega)]
    cases hp : pages with
    | nil => rw [hp] at hk; simp at hk
    | cons p rest =>
        subst hp
        simp only [pagesFetcher, Option.getD, List.drop_zero, List.head?_cons]
        rw [if_pos (by simp only [List.length_cons] at hk ⊢; omega)]
        try dsimp only
        exact collectRemainingPages_err (p :: rest) k e fuel 1 p (by omega) (by omega) hk (by omega)

/-- The two pagination loops are the same code. -/
theorem identityTagNamespacesGetAllPages_eq {α : Type} (fetch : PageApi α) (fuel : Nat) :
    identityTagNamespacesGetAllPages fetch fuel = findIdentityTagsAllPages fetch fuel := rfl

/-! ### Claim theorems -/

/-- Per-element contract of the default-resource reclassification hooks:
on a match the class becomes `cls`, `manage_default_resource_id` is set to
the id, and the reference-id string is rewritten through the parent exactly
when the parent is not omitted; on a mismatch the resource is untouched. -/
def defaultReclassOk (key cls : String) (rs rs' : List OCIResource) : Prop :=
  rs'.length = rs.length ∧
  ∀ (i : Nat) (hi : i < rs.length) (hi' : i < rs'.length) (p : OCIResource) (d : String),
    (rs.get ⟨i, hi⟩).parent = some p →
    mapLookup p.sourceAttributes key = some (Value.str d) →
    (((rs.get ⟨i, hi⟩).id = d →
        (rs'.get ⟨i, hi'⟩).terraformClass = cls ∧
        mapLookup (rs'.get ⟨i, hi'⟩).sourceAttributes "manage_default_resource_id" =
          some (Value.str (rs.get ⟨i, hi⟩).id) ∧
        (rs'.get ⟨i, hi'⟩).id = (rs.get ⟨i, hi⟩).id ∧
        (p.omitFromExport = false →
          (rs'.get ⟨i, hi'⟩).terraformReferenceIdString =
            getTerraformReference p ++ "." ++ key) ∧
        (p.omitFromExport = true →
          (rs'.get ⟨i, hi'⟩).terraformReferenceIdString =
            (rs.get ⟨i, hi⟩).terraformReferenceIdString)) ∧
      ((rs.get ⟨i, hi⟩).id ≠ d → rs'.get ⟨i, hi'⟩ = rs.get ⟨i, hi⟩))

theorem defaultReclass_spec (key cls : String) {rs rs' : List OCIResource}
    (h : mapMExcept (processDefaultResource key cls) rs = .ok rs') :
    defaultReclassOk key cls rs rs' := by
  refine ⟨mapMExcept_ok_length h, ?_⟩
  intro i hi hi' p d hp hd
  have hf := mapMExcept_ok_get h i hi hi'
  constructor
  · intro hid
    rw [processDefaultResource_ok_of_match key cls _ p d hp hd hid] at hf
    simp only [Except.ok.injEq] at hf
    rw [← hf]
    exact ⟨reclassify_terraformClass key cls p _,
      reclassify_manage_attr key cls p _,
      reclassify_id key cls p _,
      fun ho => reclassify_refIdString_not_omitted key cls p _ ho,
      fun ho => reclassify_refIdString_omitted key cls p _ ho⟩
  · intro hid
    rw [processDefaultResource_ok_of_mismatch key cls _ p d hp hd hid] at hf
    simp only [Except.ok.injEq] at hf
    exact hf.symm

/-! ### Concrete inputs used by the witnesses and the counterexample -/

/-- A VCN whose default security list is `sl1`. -/
def cVcn : OCIResource :=
  .mk "vcn1" "oci_core_vcn" "vcn_1" "" "" "cmp1" false
    [("default_security_list_id", Value.str "sl1")] none

/-- A discovered security list that is its parent VCN's default. -/
def cSL : OCIResource :=
  .mk "sl1" "oci_core_security_list" "sl_1" "" "" "cmp1" false [] (some cVcn)

/-- The reclassified form of `cSL`. -/
def cSLout : OCIResource :=
  .mk "sl1" "oci_core_default_security_list" "sl_1"
    "oci_core_vcn.vcn_1.default_security_list_id" "" "cmp1" false
    [("manage_default_resource_id", Value.str "sl1")] (some cVcn)

/-- A load balancer with id `lb1`. -/
def cLB : OCIResource :=
  .mk "lb1" "oci_load_balancer_load_balancer" "lb_1" "" "" "cmp1" false [] none

/-- A discovered backend set named `bs1` under `cLB`. -/
def cBackendSet : OCIResource :=
  .mk "" "oci_load_balancer_backend_set" "bs_1" "" "" "cmp1" false
    [("name", Value.str "bs1")] (some cLB)

/-- `cBackendSet` after composite-id synthesis. -/
def cBackendSetOut : OCIResource :=
  .mk "lb1/backendSets/bs1" "oci_load_balancer_backend_set" "bs_1" "" "" "cmp1" false
    [("name", Value.str "bs1"), ("load_balancer_id", Value.str "lb1")] (some cLB)

/-- A processed backend set acting as parent of a backend. -/
def cBSParent : OCIResource :=
  .mk "lb1/backendSets/bs1" "oci_load_balancer_backend_set" "bs_1" "" "" "cmp1" false
    [("name", Value.str "bs1"), ("load_balancer_id", Value.str "lb1")] none

/-- A discovered backend named `b1` under `cBSParent`. -/
def cBackend : OCIResource :=
  .mk "" "oci_load_balancer_backend" "b_1" "" "" "cmp1" false
    [("name", Value.str "b1")] (some cBSParent)

/-- `cBackend` after composite-id synthesis. -/
def cBackendOut : OCIResource :=
  .mk "lb1/backendSets/bs1/backends/b1" "oci_load_balancer_backend" "b_1" "" "" "cmp1" false
    [("name", Value.str "b1"), ("load_balancer_id", Value.str "lb1"),
     ("backendset_name", Value.interp "oci_load_balancer_backend_set.bs_1.name")]
    (some cBSParent)

/-- A first instance using image `img1`. -/
def cInstA : OCIResource :=
  .mk "ocid1.instance.i1" "oci_core_instance" "i1" "" "" "cmp1" false
    [("image", Value.str "img1"), ("source_details", Value.list [Value.map []])] none

/-- A second instance using the same image `img1`. -/
def cInstB : OCIResource :=
  .mk "ocid1.instance.i2" "oci_core_instance" "i2" "" "" "cmp1" false
    [("image", Value.str "img1"), ("source_details", Value.list [Value.map []])] none

/-- `cInstA` after instance post-processing. -/
def cInstAOut : OCIResource :=
  .mk "ocid1.instance.i1" "oci_core_instance" "i1" "" "" "cmp1" false
    [("image", Value.str "img1"),
     ("source_details", Value.list [Value.map [("source_id", Value.str "img1")]])] none

/-- `cInstB` after instance post-processing. -/
def cInstBOut : OCIResource :=
  .mk "ocid1.instance.i2" "oci_core_instance" "i2" "" "" "cmp1" false
    [("image", Value.str "img1"),
     ("source_details", Value.list [Value.map [("source_id", Value.str "img1")]])] none

/-- The export state after processing `cInstA` from the empty state. -/
def cStA : ExportState :=
  ⟨[("img1", "var.i1_source_image_id")], [("i1_source_image_id", "\"img1\"")]⟩

/-- The export state after additionally processing `cInstB`. -/
def cStB : ExportState :=
  ⟨[("img1", "var.i2_source_image_id")],
   [("i1_source_image_id", "\"img1\""), ("i2_source_image_id", "\"img1\"")]⟩

/-- An instance carrying the instance-pool freeform tag. -/
def cTagged : OCIResource :=
  .mk "ocid1.instance.pool" "oci_core_instance" "pooled" "" "" "cmp1" false
    [("freeform_tags", Value.map [("oci:compute:instancepool", Value.str "x")])] none

/-- An instance whose boot volume size is reported as 47 GB. -/
def cBvs47 : OCIResource :=
  .mk "ocid1.bv47" "oci_core_instance" "i47" "" "" "cmp1" false
    [("source_details", Value.list
      [Value.map [("boot_volume_size_in_gbs", Value.str "47")]])] none

/-- `cBvs47` with the too-small boot volume size removed. -/
def cBvs47Out : OCIResource :=
  .mk "ocid1.bv47" "oci_core_instance" "i47" "" "" "cmp1" false
    [("source_details", Value.list [Value.map []])] none

/-- An instance whose boot volume size is exactly 50 GB. -/
def cBvs50 : OCIResource :=
  .mk "ocid1.bv50" "oci_core_instance" "i50" "" "" "cmp1" false
    [("source_details", Value.list
      [Value.map [("boot_volume_size_in_gbs", Value.str "50")]])] none

/-- An instance whose boot volume size does not parse as an integer. -/
def cBvsBad : OCIResource :=
  .mk "ocid1.bvbad" "oci_core_instance" "ibad" "" "" "cmp1" false
    [("source_details", Value.list
      [Value.map [("boot_volume_size_in_gbs", Value.str "xyz")]])] none

/-- Three discovered availability domains. -/
def cAD0 : OCIResource :=
  .mk "ad0" "oci_identity_availability_domain" "ad_0" "" "" "cmp1" false
    [("name", Value.str "AD-0")] none

/-- Second availability domain. -/
def cAD1 : OCIResource :=
  .mk "ad1" "oci_identity_availability_domain" "ad_1" "" "" "cmp1" false
    [("name", Value.str "AD-1")] none

/-- Third availability domain, named `AD-2`, at 0-based index 2. -/
def cAD2 : OCIResource :=
  .mk "ad2" "oci_identity_availability_domain" "ad_2" "" "" "cmp1" false
    [("name", Value.str "AD-2")] none

/-- `cAD0` after processing. -/
def cAD0Out : OCIResource :=
  .mk "ad0" "oci_identity_availability_domain" "ad_0" "" "" "cmp1" false
    [("name", Value.str "AD-0"), ("index", Value.int 1)] none

/-- `cAD1` after processing. -/
def cAD1Out : OCIResource :=
  .mk "ad1" "oci_identity_availability_domain" "ad_1" "" "" "cmp1" false
    [("name", Value.str "AD-1"), ("index", Value.int 2)] none

/-- `cAD2` after processing: `index` is the 1-based position 3. -/
def cAD2Out : OCIResource :=
  .mk "ad2" "oci_identity_availability_domain" "ad_2" "" "" "cmp1" false
    [("name", Value.str "AD-2"), ("index", Value.int 3)] none

/-- The export state after processing the three availability domains. -/
def cADState : ExportState :=
  ⟨[("AD-0", "data.oci_identity_availability_domain.ad_0.name"),
    ("AD-1", "data.oci_identity_availability_domain.ad_1.name"),
    ("AD-2", "data.oci_identity_availability_domain.ad_2.name")], []⟩

theorem hasInstancePoolTag_iff (r : OCIResource) :
    hasInstancePoolTag r = true ↔
      ∃ m, mapLookup r.sourceAttributes "freeform_tags" = some (Value.map m) ∧
        (mapLookup m "oci:compute:instancepool").isSome = true := by
  unfold hasInstancePoolTag
  cases hv : mapLookup r.sourceAttributes "freeform_tags" with
  | none => simp
  | some v => cases v <;> simp

theorem hasSourceDetails_iff (r : OCIResource) :
    hasSourceDetails r = true ↔
      ∃ l, mapLookup r.sourceAttributes "source_details" = some (Value.list l) ∧
        l ≠ [] := by
  unfold hasSourceDetails
  cases hv : mapLookup r.sourceAttributes "source_details" with
  | none => simp
  | some v => cases v <;> simp

/-- Claim C1, counterexample: two instances that share the image id `img1`
both register `img1` in the Reference Map; processing the second replaces
the first instance's variable expression with a different one, so a later
registration step does overwrite an existing key, falsifying first-writer
wins. -/
theorem claim_C1_counterexample :
    processInstances ⟨[], []⟩ [cInstA] = .ok (cStA, [cInstAOut]) ∧
    mapLookup cStA.referenceMap "img1" = some "var.i1_source_image_id" ∧
    processInstances cStA [cInstB] = .ok (cStB, [cInstBOut]) ∧
    mapLookup cStB.referenceMap "img1" = some "var.i2_source_image_id" ∧
    "var.i2_source_image_id" ≠ "var.i1_source_image_id" :=
  ⟨rfl, rfl, rfl, rfl, by decide⟩

/-- Claim C1, amended: Reference Map registration is last-writer-wins: for
any key already present in the Reference Map, a later instance
post-processing step that registers the same image id replaces the entry
with its own variable expression. -/
theorem claim_C1_reference_map_last_writer_wins
    (st : ExportState) (r : OCIResource) (img prior : String)
    (sd : List (String × Value)) (tl : List Value)
    (hprior : mapLookup st.referenceMap img = some prior)
    (htag : hasInstancePoolTag r = false)
    (himg : mapLookup r.sourceAttributes "image" = some (Value.str img))
    (hsd : mapLookup r.sourceAttributes "source_details" =
      some (Value.list (Value.map sd :: tl)))
    (hbvs : mapLookup sd "boot_volume_size_in_gbs" = none) :
    ∃ st' rs', processInstances st [r] = .ok (st', rs') ∧
      mapLookup st'.referenceMap img =
        some (getVarHclString (r.terraformName ++ "_source_image_id")) ∧
      (getVarHclString (r.terraformName ++ "_source_image_id") ≠ prior →
        mapLookup st'.referenceMap img ≠ some prior) := by
  have hv : sdView r = some (sd, tl) := by unfold sdView; rw [hsd]
  have hbvs2 : bootVolumeSizeStep (imageStep (registerBootVolumeRef st r) r sd).2 =
      .ok (imageStep (registerBootVolumeRef st r) r sd).2 := by
    unfold bootVolumeSizeStep
    rw [imageStep_snd_lookup_ne _ _ _ _ (by decide), hbvs]
  have hlook : mapLookup (imageStep (registerBootVolumeRef st r) r sd).1.referenceMap img =
      some (getVarHclString (r.terraformName ++ "_source_image_id")) := by
    rw [imageStep_fst_refMap_of_image _ _ _ _ himg, mapLookup_mapInsert_self]
  refine ⟨(imageStep (registerBootVolumeRef st r) r sd).1,
    [r.setAttr "source_details"
      (Value.list (Value.map (imageStep (registerBootVolumeRef st r) r sd).2 :: tl))],
    ?_, hlook, ?_⟩
  · simp only [processInstances]
    rw [if_neg (by simp [htag])]
    rw [processInstance_eq, hv]
    dsimp only
    rw [hbvs2]
  · intro hne hcontra
    rw [hlook] at hcontra
    exact hne (Option.some.inj hcontra)

/-- Witness for the amended claim C1: with `img1` already bound to the first
instance's variable expression, processing the second instance rebinds it. -/
theorem claim_C1_reference_map_last_writer_wins_witness :
    mapLookup cStA.referenceMap "img1" = some "var.i1_source_image_id" ∧
    (∃ st' rs', processInstances cStA [cInstB] = .ok (st', rs') ∧
      mapLookup st'.referenceMap "img1" =
        some (getVarHclString ("i2" ++ "_source_image_id")) ∧
      (getVarHclString ("i2" ++ "_source_image_id") ≠ "var.i1_source_image_id" →
        mapLookup st'.referenceMap "img1" ≠ some "var.i1_source_image_id")) :=
  ⟨rfl, claim_C1_reference_map_last_writer_wins cStA cInstB "img1"
    "var.i1_source_image_id" [] [] rfl rfl rfl rfl rfl⟩

/-- Claim C2: each default-resource hook reclassifies exactly the resources
whose id equals the parent's `default_*_id` attribute to the `default_*`
class, gives them `manage_default_resource_id` equal to their id, rewrites
their reference string through the parent iff the parent is not omitted,
and leaves non-matching resources unchanged. -/
theorem claim_C2_default_resource_reclassification :
    (∀ rs rs', processDefaultSecurityLists rs = .ok rs' →
      defaultReclassOk "default_security_list_id" "oci_core_default_security_list" rs rs') ∧
    (∀ rs rs', processDefaultRouteTables rs = .ok rs' →
      defaultReclassOk "default_route_table_id" "oci_core_default_route_table" rs rs') ∧
    (∀ rs rs', processDefaultDhcpOptions rs = .ok rs' →
      defaultReclassOk "default_dhcp_options_id" "oci_core_default_dhcp_options" rs rs') :=
  ⟨fun _ _ h => defaultReclass_spec _ _ h,
   fun _ _ h => defaultReclass_spec _ _ h,
   fun _ _ h => defaultReclass_spec _ _ h⟩

/-- Witness for claim C2: a security list matching its VCN's default id is
reclassified. -/
theorem claim_C2_default_resource_reclassification_witness :
    processDefaultSecurityLists [cSL] = .ok [cSLout] ∧
    defaultReclassOk "default_security_list_id" "oci_core_default_security_list"
      [cSL] [cSLout] :=
  ⟨rfl, claim_C2_default_resource_reclassification.1 [cSL] [cSLout] rfl⟩

/-- Claim C3: backend-set post-processing sets each backend set's id to the
composite id of its name and its parent load balancer's id and copies the
parent id into `load_balancer_id`; the composite id depends only on that
pair, so equal inputs give equal ids. -/
theorem claim_C3_backend_set_composite_id :
    (∀ rs rs', processLoadBalancerBackendSets rs = .ok rs' →
      rs'.length = rs.length ∧
      ∀ (i : Nat) (hi : i < rs.length) (hi' : i < rs'.length) (bs1 : String)
        (p : OCIResource),
        mapLookup (rs.get ⟨i, hi⟩).sourceAttributes "name" = some (Value.str bs1) →
        (rs.get ⟨i, hi⟩).parent = some p →
        (rs'.get ⟨i, hi'⟩).id = getBackendSetCompositeId bs1 p.id ∧
        mapLookup (rs'.get ⟨i, hi'⟩).sourceAttributes "load_balancer_id" =
          some (Value.str p.id)) ∧
    (∀ (r₁ r₂ r₁' r₂' : OCIResource) (bs1 : String) (p₁ p₂ : OCIResource),
      processBackendSet r₁ = .ok r₁' → processBackendSet r₂ = .ok r₂' →
      mapLookup r₁.sourceAttributes "name" = some (Value.str bs1) →
      mapLookup r₂.sourceAttributes "name" = some (Value.str bs1) →
      r₁.parent = some p₁ → r₂.parent = some p₂ → p₁.id = p₂.id →
      r₁'.id = r₂'.id) := by
  constructor
  · intro rs rs' h
    refine ⟨mapMExcept_ok_length h, ?_⟩
    intro i hi hi' bs1 p hname hp
    have hf := mapMExcept_ok_get h i hi hi'
    rw [processBackendSet_ok _ p bs1 hname hp] at hf
    simp only [Except.ok.injEq] at hf
    rw [← hf]
    exact ⟨backendSetResult_id p _ bs1, backendSetResult_lb p _ bs1⟩
  · intro r₁ r₂ r₁' r₂' bs1 p₁ p₂ h₁ h₂ hn₁ hn₂ hp₁ hp₂ hid
    rw [processBackendSet_ok _ p₁ bs1 hn₁ hp₁] at h₁
    rw [processBackendSet_ok _ p₂ bs1 hn₂ hp₂] at h₂
    simp only [Except.ok.injEq] at h₁ h₂
    rw [← h₁, ← h₂, backendSetResult_id, backendSetResult_id, hid]

/-- Witness for claim C3: backend set `bs1` under load balancer `lb1`. -/
theorem claim_C3_backend_set_composite_id_witness :
    processLoadBalancerBackendSets [cBackendSet] = .ok [cBackendSetOut] ∧
    cBackendSetOut.id = getBackendSetCompositeId "bs1" "lb1" ∧
    mapLookup cBackendSetOut.sourceAttributes "load_balancer_id" =
      some (Value.str "lb1") := by
  have h := (claim_C3_backend_set_composite_id.1 [cBackendSet] [cBackendSetOut] rfl).2
    0 (by decide) (by decide) "bs1" cLB rfl rfl
  exact ⟨rfl, h.1, h.2⟩

/-- Claim C4: availability-domain processing gives the domain at 0-based
position `i` the `index` attribute `i + 1`, registers its name in the
Reference Map as a data-source expression, and the rendered data-source
block carries `ad_number = "<i+1>"`. -/
theorem claim_C4_availability_domains (st st' : ExportState)
    (rs rs' : List OCIResource)
    (h : processAvailabilityDomains st rs = .ok (st', rs')) :
    rs'.length = rs.length ∧
    ∀ (i : Nat) (hi' : i < rs'.length),
      mapLookup (rs'.get ⟨i, hi'⟩).sourceAttributes "index" =
        some (Value.int ((i : Int) + 1)) ∧
      (∀ nm, mapLookup (rs'.get ⟨i, hi'⟩).sourceAttributes "name" =
          some (Value.str nm) →
        ∃ ad' ∈ rs', mapLookup ad'.sourceAttributes "name" = some (Value.str nm) ∧
          mapLookup st'.referenceMap nm =
            some (getDataSourceHclString (getTerraformReference ad') "name")) ∧
      (∀ varMap, ∃ pre, getAvailabilityDomainHCLDatasource (rs'.get ⟨i, hi'⟩) varMap =
        .ok (pre ++ "ad_number = \"" ++ toString ((i : Int) + 1) ++ "\"\n" ++ "\x7d\n")) := by
  obtain ⟨hlen, hget⟩ := processADs_ok_get st rs 0 st' rs' h
  refine ⟨hlen, ?_⟩
  intro i hi'
  have hi : i < rs.length := hlen ▸ hi'
  have hgi := hget i hi hi'
  have hidx : mapLookup (rs'.get ⟨i, hi'⟩).sourceAttributes "index" =
      some (Value.int ((i : Int) + 1)) := by
    rw [hgi, setAttr_sourceAttributes, mapLookup_mapInsert_self]
    simp only [Option.some.injEq, Value.int.injEq]
    omega
  refine ⟨hidx, ?_, ?_⟩
  · intro nm hname
    exact processADs_entry st rs 0 st' rs' h (rs'.get ⟨i, hi'⟩)
      (List.get_mem rs' i hi') nm hname
  · intro varMap
    exact ⟨_, getAvailabilityDomainHCLDatasource_ok _ varMap _ hidx⟩

/-- Witness for claim C4: the third availability domain `AD-2` gets index 3,
a Reference Map entry, and renders with `ad_number = "3"`. -/
theorem claim_C4_availability_domains_witness :
    processAvailabilityDomains ⟨[], []⟩ [cAD0, cAD1, cAD2] =
      .ok (cADState, [cAD0Out, cAD1Out, cAD2Out]) ∧
    mapLookup cAD2Out.sourceAttributes "index" = some (Value.int 3) ∧
    (∃ ad' ∈ [cAD0Out, cAD1Out, cAD2Out],
      mapLookup ad'.sourceAttributes "name" = some (Value.str "AD-2") ∧
      mapLookup cADState.referenceMap "AD-2" =
        some (getDataSourceHclString (getTerraformReference ad') "name")) ∧
    getAvailabilityDomainHCLDatasource cAD2Out [] =
      .ok "data oci_identity_availability_domain ad_2 \x7b\ncompartment_id = \nad_number = \"3\"\n\x7d\n" := by
  have h := claim_C4_availability_domains ⟨[], []⟩ cADState [cAD0, cAD1, cAD2]
    [cAD0Out, cAD1Out, cAD2Out] rfl
  exact ⟨rfl, (h.2 2 (by decide)).1, (h.2 2 (by decide)).2.1 "AD-2" rfl, rfl⟩

/-- Claim C5: applying instance processing, default-security-list
reclassification, or backend composite-id synthesis a second time to its
own successful output returns the same resource list (ids, classes and
attributes unchanged). -/
theorem claim_C5_post_processing_idempotent :
    (∀ (st st' : ExportState) (rs rs' : List OCIResource),
      processInstances st rs = .ok (st', rs') →
      ∀ st₂, ∃ st₃, processInstances st₂ rs' = .ok (st₃, rs')) ∧
    (∀ rs rs', processDefaultSecurityLists rs = .ok rs' →
      processDefaultSecurityLists rs' = .ok rs') ∧
    (∀ rs rs', processLoadBalancerBackends rs = .ok rs' →
      processLoadBalancerBackends rs' = .ok rs') :=
  ⟨processInstances_idem,
   fun _ _ h => mapMExcept_idem
     (fun a b hab => processDefaultResource_idem "default_security_list_id"
       "oci_core_default_security_list" a b hab) h,
   fun _ _ h => mapMExcept_idem (fun a b hab => processBackend_idem a b hab) h⟩

/-- Witness for claim C5: the three hooks are idempotent on concrete
already-processed outputs. -/
theorem claim_C5_post_processing_idempotent_witness :
    (∃ st₃, processInstances ⟨[], []⟩ [cInstAOut] = .ok (st₃, [cInstAOut])) ∧
    processDefaultSecurityLists [cSLout] = .ok [cSLout] ∧
    processLoadBalancerBackends [cBackendOut] = .ok [cBackendOut] :=
  ⟨claim_C5_post_processing_idempotent.1 ⟨[], []⟩ cStA [cInstA] [cInstAOut] rfl ⟨[], []⟩,
   claim_C5_post_processing_idempotent.2.1 [cSL] [cSLout] rfl,
   claim_C5_post_processing_idempotent.2.2 [cBackend] [cBackendOut] rfl⟩

/-- Claim C6: availability-domain processing errors exactly when some
domain's name is missing, non-string or empty; namespace processing errors
exactly when some namespace attribute is missing, non-string or empty; and
bucket id generation errors exactly when `name` or `namespace` is not a
string. -/
theorem claim_C6_missing_attribute_errors :
    (∀ (st : ExportState) (rs : List OCIResource),
      (∃ e, processAvailabilityDomains st rs = .error e) ↔
        ∃ r ∈ rs, adNameBad r = true) ∧
    (∀ (st : ExportState) (rs : List OCIResource),
      (∃ e, processObjectStorageNamespace st rs = .error e) ↔
        ∃ r ∈ rs, nsNameBad r = true) ∧
    (∀ r : OCIResource,
      (∃ e, getObjectStorageBucketId r = .error e) ↔
        (attrNotString r "name" = true ∨ attrNotString r "namespace" = true)) :=
  ⟨fun st rs => processADs_error_iff st rs 0,
   processObjectStorageNamespace_error_iff,
   getObjectStorageBucketId_error_iff⟩

/-- Claim C7: against a finite page chain, both pagination loops return the
concatenation of all pages in order (never a strict prefix), and an error on
any page request propagates to the caller. -/
theorem claim_C7_pagination :
    (∀ (α : Type) (pages : List (List α)) (fuel : Nat), pages.length ≤ fuel →
      findIdentityTagsAllPages (pagesFetcher pages) fuel = .ok pages.flatten ∧
      identityTagNamespacesGetAllPages (pagesFetcher pages) fuel = .ok pages.flatten) ∧
    (∀ (α : Type) (pages : List (List α)) (k : Nat) (e : String) (fuel : Nat),
      k < pages.length → pages.length ≤ fuel →
      findIdentityTagsAllPages (pagesFetcherWithErr pages k e) fuel = .error e ∧
      identityTagNamespacesGetAllPages (pagesFetcherWithErr pages k e) fuel = .error e) :=
  ⟨fun _ pages fuel hf =>
    ⟨findIdentityTagsAllPages_flatten pages fuel hf,
     by rw [identityTagNamespacesGetAllPages_eq]
        exact findIdentityTagsAllPages_flatten pages fuel hf⟩,
   fun _ pages k e fuel hk hf =>
    ⟨findIdentityTagsAllPages_err pages k e fuel hk hf,
     by rw [identityTagNamespacesGetAllPages_eq]
        exact findIdentityTagsAllPages_err pages k e fuel hk hf⟩⟩

/-- Witness for claim C7: a three-item two-page chain concatenates, and an
error on the second page propagates. -/
theorem claim_C7_pagination_witness :
    (([[1, 2], [3]] : List (List Nat)).length ≤ 5 ∧
      findIdentityTagsAllPages (pagesFetcher [[1, 2], [3]]) 5 = .ok [1, 2, 3]) ∧
    (1 < ([[1, 2], [3]] : List (List Nat)).length ∧
      identityTagNamespacesGetAllPages (pagesFetcherWithErr [[1, 2], [3]] 1 "boom") 5 =
        .error "boom") :=
  ⟨⟨by decide, (claim_C7_pagination.1 Nat [[1, 2], [3]] 5 (by decide)).1⟩,
   ⟨by decide, (claim_C7_pagination.2 Nat [[1, 2], [3]] 1 "boom" 5
      (by decide) (by decide)).2⟩⟩

/-- Claim C8: instance processing drops exactly the instances whose
`freeform_tags` map contains the key `oci:compute:instancepool` and keeps
every other instance (circumscribed by the id sequence), and the dropping
test holds exactly for a map-valued `freeform_tags` containing the key. -/
theorem claim_C8_instance_pool_filter :
    (∀ (st st' : ExportState) (rs rs' : List OCIResource),
      processInstances st rs = .ok (st', rs') →
      rs'.map OCIResource.id =
        (rs.filter (fun r => !hasInstancePoolTag r)).map OCIResource.id ∧
      ∀ r' ∈ rs', hasInstancePoolTag r' = false) ∧
    (∀ r, hasInstancePoolTag r = true ↔
      ∃ m, mapLookup r.sourceAttributes "freeform_tags" = some (Value.map m) ∧
        (mapLookup m "oci:compute:instancepool").isSome = true) :=
  ⟨processInstances_ids, hasInstancePoolTag_iff⟩

/-- Witness for claim C8: a tagged instance is dropped, the untagged one is
kept. -/
theorem claim_C8_instance_pool_filter_witness :
    processInstances ⟨[], []⟩ [cTagged, cInstA] = .ok (cStA, [cInstAOut]) ∧
    [cInstAOut].map OCIResource.id =
      ([cTagged, cInstA].filter (fun r => !hasInstancePoolTag r)).map OCIResource.id ∧
    hasInstancePoolTag cTagged = true :=
  ⟨rfl,
   (claim_C8_instance_pool_filter.1 ⟨[], []⟩ cStA [cTagged, cInstA] [cInstAOut] rfl).1,
   rfl⟩

/-- Claim C9: boot-volume filtering keeps exactly the resources whose
`source_details` attribute exists, is a list, and is non-empty. -/
theorem claim_C9_sourced_boot_volume_filter :
    ∀ (rs : List OCIResource) (r : OCIResource),
      r ∈ filterSourcedBootVolumes rs ↔
        (r ∈ rs ∧ ∃ l, mapLookup r.sourceAttributes "source_details" =
          some (Value.list l) ∧ l ≠ []) := by
  intro rs r
  unfold filterSourcedBootVolumes
  rw [List.mem_filter]
  exact and_congr_right fun _ => hasSourceDetails_iff r

/-- Claim C10: whenever a retained instance's first source-details entry has
a string `boot_volume_size_in_gbs`, a value parsing below 50 is removed, a
value parsing at 50 or above is kept unchanged, and a value that does not
parse as an integer makes instance processing return an error. -/
theorem claim_C10_boot_volume_size :
    (∀ (st st' : ExportState) (rs rs' : List OCIResource),
      processInstances st rs = .ok (st', rs') →
      List.Forall₂ (fun r r' => ∀ sd tl s,
          mapLookup r.sourceAttributes "source_details" =
            some (Value.list (Value.map sd :: tl)) →
          mapLookup sd "boot_volume_size_in_gbs" = some (Value.str s) →
          ∃ n, goParseInt s = some n ∧
            ∃ sd', mapLookup r'.sourceAttributes "source_details" =
                some (Value.list (Value.map sd' :: tl)) ∧
              (n < 50 → mapLookup sd' "boot_volume_size_in_gbs" = none) ∧
              (¬n < 50 → mapLookup sd' "boot_volume_size_in_gbs" = some (Value.str s)))
        (rs.filter (fun r => !hasInstancePoolTag r)) rs') ∧
    (∀ (st : ExportState) (rs : List OCIResource) (r : OCIResource)
      (sd : List (String × Value)) (tl : List Value) (s : String),
      r ∈ rs → hasInstancePoolTag r = false →
      mapLookup r.sourceAttributes "source_details" =
        some (Value.list (Value.map sd :: tl)) →
      mapLookup sd "boot_volume_size_in_gbs" = some (Value.str s) →
      goParseInt s = none →
      ∃ e, processInstances st rs = .error e) := by
  constructor
  · intro st st' rs rs' h
    exact (processInstances_correspond st st' rs rs' h).imp
      (fun r r' hex sd tl s hsd hbvs => by
        obtain ⟨stA, stB, hpi⟩ := hex
        exact processInstance_bvs stA stB r r' sd tl s hpi hsd hbvs)
  · exact processInstances_error_bvs

/-- Witness for claim C10: a 47 GB size is removed, a 50 GB size is kept,
and an unparsable size yields an error. -/
theorem claim_C10_boot_volume_size_witness :
    processInstances ⟨[], []⟩ [cBvs47] = .ok (⟨[], []⟩, [cBvs47Out]) ∧
    mapLookup cBvs47Out.sourceAttributes "source_details" =
      some (Value.list [Value.map []]) ∧
    processInstances ⟨[], []⟩ [cBvs50] = .ok (⟨[], []⟩, [cBvs50]) ∧
    (∃ e, processInstances ⟨[], []⟩ [cBvsBad] = .error e) :=
  ⟨rfl, rfl, rfl,
   claim_C10_boot_volume_size.2 ⟨[], []⟩ [cBvsBad] cBvsBad
     [("boot_volume_size_in_gbs", Value.str "xyz")] [] "xyz"
     (List.mem_singleton.mpr rfl) rfl rfl rfl rfl⟩

end ExportHelpers
